import Mathlib

/-!
# adminmovie: the admin console of `src/App.jsx`

A shallow embedding of the logic of `App.jsx` and of the proxy of `vite.config.js`: the
slug normaliser `toSlug`, the client-side search filter of `ResourcePage`, the nine
resource descriptors of `createResources` (their `makeEmpty`, `makeFromRow`, `toPayload`,
`rowTitle`, paths and foreign-key renderers), the handlers `submit`, `remove`, `openCreate`
and `openEdit`, the fetch wrapper `apiFetch`, the form edits of the category and genre
forms, the notification timer of `showToast` and the path rewrite of the proxy.

Modelling conventions.

* A JavaScript string is a `List Char` (`Str`).  All the string operations used by the
  program (`trim`, the three regular expressions of `toSlug`, `includes`) act on single
  code units that lie in the basic plane, so acting on code points is the same thing.
* JavaScript numbers are IEEE doubles.  The program never computes with them; it only
  converts (`Number(x)`, `String(x)`, truthiness).  The number type `N` and these
  conversions are therefore parameters (`NumOps N`), and every theorem holds for each
  choice of them.  `decNum` is a small instance (the integers and `NaN`) used to run the
  definitions on concrete records.
* A record, a form state and a payload are objects with scalar fields (`JsObj`): an
  association list from field names to values, in the order of the object literal.
* The handlers `submit` and `remove` are functions of the controller state, of the remote
  store (`Server`: the outcome of `apiFetch` for a request) and of the answer to
  `window.confirm`; they return the new state with the requests issued and the list keys
  invalidated.  `apiFetch` itself is embedded from the response on, with `JSON.parse` a
  parameter (`JsonParse`).
* The data of a query is what `useQuery` hands to the component (`none` for `undefined`):
  the value of the last fetch that resolved, kept through later failures.
* The lower-casing of the search filter is a parameter (`CaseMap`): the lower-case form of
  each code point in its context.
* The notification timer runs on a clock counted in milliseconds (`ToastClock`), with the
  pending timeouts and the function object `showToast` of each render made explicit.
-/

namespace AdminMovie

/-! ## Strings -/

/-- A JavaScript string, as its list of characters. -/
abbrev Str := List Char

/-- White space as understood by both `String.prototype.trim` and the regular-expression
class `\s`: the ECMAScript `WhiteSpace` and `LineTerminator` code points. -/
def isSpace (c : Char) : Bool :=
  let n := c.toNat
  n == 0x09 || n == 0x0A || n == 0x0B || n == 0x0C || n == 0x0D || n == 0x20 ||
  n == 0xA0 || n == 0x1680 || (0x2000 ≤ n && n ≤ 0x200A) || n == 0x2028 || n == 0x2029 ||
  n == 0x202F || n == 0x205F || n == 0x3000 || n == 0xFEFF

/-- The regular-expression class `\w` (no `u` or `i` flag): `[A-Za-z0-9_]`. -/
def isWord (c : Char) : Bool :=
  let n := c.toNat
  (0x41 ≤ n && n ≤ 0x5A) || (0x61 ≤ n && n ≤ 0x7A) || (0x30 ≤ n && n ≤ 0x39) || n == 0x5F

/-- The hyphen-minus character. -/
def isHyphen (c : Char) : Bool := c.toNat == 0x2D

/-- Lower-case form of one code point.  The ASCII capitals map to the ASCII small
letters.  U+0130 and U+212A are the two code points outside ASCII whose lower-case form
contains an ASCII letter (`i` followed by U+0307, and `k`).  Every other code point is
kept: case folding outside ASCII is not modelled. -/
def lowerChar (c : Char) : List Char :=
  let n := c.toNat
  if 0x41 ≤ n ∧ n ≤ 0x5A then [Char.ofNat (n + 32)]
  else if n = 0x130 then [Char.ofNat 0x69, Char.ofNat 0x307]
  else if n = 0x212A then [Char.ofNat 0x6B]
  else [c]

/-- The method `String.prototype.toLowerCase` as `toSlug` needs it: `toSlug` deletes every
code point outside ASCII that is not white space, so only the lower-case forms that hold
an ASCII letter matter there. The search filter uses `toLowerCaseBy` instead. -/
def toLowerCase : Str → Str
  | [] => []
  | c :: cs => lowerChar c ++ toLowerCase cs

/-- The lower-case mapping of `String.prototype.toLowerCase`, a parameter: the lower-case
form of a code point, given the code points before it and after it in the string (the
form of the Greek capital sigma depends on them). -/
abbrev CaseMap := Str → Char → Str → Str

/-- Lower-casing of the rest of a string, `before` holding the code points passed. -/
def lowerFrom (f : CaseMap) : Str → Str → Str
  | _, [] => []
  | before, c :: cs => f before c cs ++ lowerFrom f (before ++ [c]) cs

/-- The method `String.prototype.toLowerCase` for the lower-case mapping `f`. -/
def toLowerCaseBy (f : CaseMap) (s : Str) : Str := lowerFrom f [] s

/-- The method `String.prototype.trimStart`. -/
def trimStart (s : Str) : Str := s.dropWhile isSpace

/-- The method `String.prototype.trimEnd`. -/
def trimEnd (s : Str) : Str := (s.reverse.dropWhile isSpace).reverse

/-- The method `String.prototype.trim`. -/
def trim (s : Str) : Str := trimEnd (trimStart s)

/-- Does `s` start with `q`. -/
def startsWith : Str → Str → Bool
  | _, [] => true
  | [], _ :: _ => false
  | c :: s, d :: q => c == d && startsWith s q

/-- The method `String.prototype.includes`: `q` occurs in `s` as a contiguous substring. -/
def includes : Str → Str → Bool
  | [], q => startsWith [] q
  | c :: s, q => startsWith (c :: s) q || includes s q

/-- The global replacement `.replace(/[^\w\s-]/g, "")`: every character that is not a
word character, white space or a hyphen is deleted. -/
def stripOther (s : Str) : Str := s.filter (fun c => isWord c || isSpace c || isHyphen c)

/-- Replace every maximal run of characters satisfying `p` by the single character `r`;
`inRun` tells that the previous character belonged to a run already replaced. -/
def replaceRunsFrom (p : Char → Bool) (r : Char) : Bool → Str → Str
  | _, [] => []
  | inRun, c :: cs =>
    if p c then
      if inRun then replaceRunsFrom p r true cs else r :: replaceRunsFrom p r true cs
    else c :: replaceRunsFrom p r false cs

/-- The global replacement of a run pattern (`\s+`, then the hyphen run) by a single
character: `p` is the class of the run and `r` the replacement character. -/
def replaceRuns (p : Char → Bool) (r : Char) (s : Str) : Str := replaceRunsFrom p r false s

/-- The method `Array.prototype.join` on an array of strings. -/
def join (sep : Str) : List Str → Str
  | [] => []
  | [a] => a
  | a :: b :: rest => a ++ sep ++ join sep (b :: rest)

/-! ## Values -/

/-- The conversions of the JavaScript number type that the program uses. -/
structure NumOps (N : Type) where
  -- the number `0`
  zero : N
  -- the number `1`, the value of `Number(true)`
  one : N
  -- the value `NaN`
  nan : N
  -- the conversion `Number(s)` of a string
  ofString : Str → N
  -- the conversion `String(n)` of a number
  toStr : N → Str
  -- truthiness of a number: false for `0`, `-0` and `NaN`
  truthy : N → Bool

/-- A scalar JavaScript value: what a field of a record, a form or a payload holds. -/
inductive JsVal (N : Type) where
  | undefined
  | null
  | bool (b : Bool)
  | num (n : N)
  | str (s : Str)
  deriving DecidableEq

/-- An object with scalar fields: a record, a form state or a payload. -/
abbrev JsObj (N : Type) := List (Str × JsVal N)

/-- String literals are read as JavaScript strings. -/
instance : Coe String Str := ⟨String.toList⟩

section Values

variable {N : Type}

/-- The conversion `String(v)`. -/
def jsString (P : NumOps N) : JsVal N → Str
  | .undefined => "undefined"
  | .null => "null"
  | .bool true => "true"
  | .bool false => "false"
  | .num n => P.toStr n
  | .str s => s

/-- The conversion `Number(v)`. -/
def jsNumber (P : NumOps N) : JsVal N → N
  | .undefined => P.nan
  | .null => P.zero
  | .bool true => P.one
  | .bool false => P.zero
  | .num n => n
  | .str s => P.ofString s

/-- Truthiness of a value, the result of `!!v`. -/
def truthy (P : NumOps N) : JsVal N → Bool
  | .undefined => false
  | .null => false
  | .bool b => b
  | .num n => P.truthy n
  | .str s => !s.isEmpty

/-- The nullish coalescing `v ?? d`. -/
def nullish (v d : JsVal N) : JsVal N :=
  match v with
  | .undefined => d
  | .null => d
  | _ => v

/-- The disjunction `a || b`. -/
def orElse (P : NumOps N) (a b : JsVal N) : JsVal N :=
  if truthy P a then a else b

/-- The property read `o.k` (or `o[k]`): `undefined` when the object has no such field. -/
def get (o : JsObj N) (k : Str) : JsVal N :=
  match o with
  | [] => .undefined
  | (k', v) :: rest => if k' = k then v else get rest k

/-- The object `{ ...o, k: v }`: the field `k` is overwritten in place when `o` has it
and is added at the end otherwise. -/
def set (o : JsObj N) (k : Str) (v : JsVal N) : JsObj N :=
  match o with
  | [] => [(k, v)]
  | (k', v') :: rest => if k' = k then (k, v) :: rest else (k', v') :: set rest k v

/-- The slug normaliser `toSlug(str = "")`: `String(str)`, lower-cased, trimmed, stripped
of everything but word characters, white space and hyphens, then every run of white
space and every run of hyphens replaced by one hyphen. -/
def toSlug (P : NumOps N) (arg : JsVal N) : Str :=
  let str : JsVal N := match arg with
    | .undefined => .str ""
    | v => v
  replaceRuns isHyphen '-'
    (replaceRuns isSpace '-' (stripOther (trim (toLowerCase (jsString P str)))))

/-- The memoised value `filtered` of `ResourcePage`: the rows shown for a query. -/
def filtered (P : NumOps N) (f : CaseMap) (searchKeys : List Str) (rows : List (JsObj N))
    (query : Str) : List (JsObj N) :=
  let q := toLowerCaseBy f (trim query)
  if q.isEmpty then rows
  else rows.filter fun r =>
    searchKeys.any fun k =>
      includes (toLowerCaseBy f (jsString P (nullish (get r k) (.str "")))) q

end Values

/-! ## The resource descriptors of `createResources` -/

section Descriptors

variable {N : Type}

/-- The payload coercion of a text field, `String(v ?? "").trim()`. -/
def asString (P : NumOps N) (v : JsVal N) : JsVal N :=
  .str (trim (jsString P (nullish v (.str ""))))

/-- The payload coercion of a number field,
`v === "" || v === null || v === undefined ? 0 : Number(v)`. -/
def asNumber (P : NumOps N) (v : JsVal N) : JsVal N :=
  match v with
  | .str [] => .num P.zero
  | .null => .num P.zero
  | .undefined => .num P.zero
  | w => .num (jsNumber P w)

/-- The coercion of a flag, `!!v`. -/
def asBool (P : NumOps N) (v : JsVal N) : JsVal N := .bool (truthy P v)

/-- The path builder of a template such as `/actor/${id}`. -/
def idPath (P : NumOps N) (base : Str) (id : JsVal N) : Str := base ++ "/" ++ jsString P id

/-- The `paths` of a descriptor; `update` and `remove` are optional. -/
structure Paths (N : Type) where
  list : Str
  create : Str
  update : Option (JsVal N → Str)
  remove : Option (JsVal N → Str)

/-- A resource descriptor, without its markup (`columns`, `renderForm`). -/
structure Resource (N : Type) where
  key : Str
  label : Str
  lookups : List (Str × Str)
  paths : Paths N
  searchKeys : List Str
  requiredFields : List Str
  rowTitle : JsObj N → JsVal N
  makeEmpty : JsObj N
  makeFromRow : JsObj N → JsObj N
  toPayload : JsObj N → JsObj N

/-- The function `makeEmpty` of `actor`. -/
def actor.makeEmpty : JsObj N :=
  [("full_name", .str ""),
   ("photo_url", .str ""),
   ("birth_year", .str ""),
   ("biography", .str ""),
   ("country", .str "")]

/-- The function `makeFromRow` of `actor`. -/
def actor.makeFromRow (r : JsObj N) : JsObj N :=
  [("full_name", nullish (get r "full_name") (.str "")),
   ("photo_url", nullish (get r "photo_url") (.str "")),
   ("birth_year", nullish (get r "birth_year") (.str "")),
   ("biography", nullish (get r "biography") (.str "")),
   ("country", nullish (get r "country") (.str ""))]

/-- The function `toPayload` of `actor`. -/
def actor.toPayload (P : NumOps N) (f : JsObj N) : JsObj N :=
  [("full_name", asString P (get f "full_name")),
   ("photo_url", asString P (get f "photo_url")),
   ("birth_year", asNumber P (get f "birth_year")),
   ("biography", asString P (get f "biography")),
   ("country", asString P (get f "country"))]

/-- The function `rowTitle` of `actor`: `r.full_name || r.id`. -/
def actor.rowTitle (P : NumOps N) (r : JsObj N) : JsVal N :=
  orElse P (get r "full_name") (get r "id")

/-- The descriptor of `actor`. -/
def actor.resource (P : NumOps N) : Resource N where
  key := "actor"
  label := "Actors"
  lookups := []
  paths := ⟨"/actor", "/actor", some (idPath P "/actor"), some (idPath P "/actor")⟩
  searchKeys := ["full_name", "country", "biography"]
  requiredFields := ["full_name"]
  rowTitle := actor.rowTitle P
  makeEmpty := actor.makeEmpty
  makeFromRow := actor.makeFromRow
  toPayload := actor.toPayload P

/-- The function `makeEmpty` of `category`. -/
def category.makeEmpty (P : NumOps N) : JsObj N :=
  [("name_uz", .str ""),
   ("name_ru", .str ""),
   ("name_en", .str ""),
   ("slug", .str ""),
   ("order_number", .num P.zero),
   ("is_active", .bool true),
   ("autoSlug", .bool true)]

/-- The function `makeFromRow` of `category`. -/
def category.makeFromRow (P : NumOps N) (r : JsObj N) : JsObj N :=
  [("name_uz", nullish (get r "name_uz") (.str "")),
   ("name_ru", nullish (get r "name_ru") (.str "")),
   ("name_en", nullish (get r "name_en") (.str "")),
   ("slug", nullish (get r "slug") (.str "")),
   ("order_number", nullish (get r "order_number") (.num P.zero)),
   ("is_active", asBool P (get r "is_active")),
   ("autoSlug", .bool false)]

/-- The function `toPayload` of `category`. -/
def category.toPayload (P : NumOps N) (f : JsObj N) : JsObj N :=
  [("name_uz", asString P (get f "name_uz")),
   ("name_ru", asString P (get f "name_ru")),
   ("name_en", asString P (get f "name_en")),
   ("slug", asString P (get f "slug")),
   ("order_number", asNumber P (get f "order_number")),
   ("is_active", asBool P (get f "is_active"))]

/-- The function `rowTitle` of `category`: `r.name_uz || r.slug || r.id`. -/
def category.rowTitle (P : NumOps N) (r : JsObj N) : JsVal N :=
  orElse P (orElse P (get r "name_uz") (get r "slug")) (get r "id")

/-- The descriptor of `category`. -/
def category.resource (P : NumOps N) : Resource N where
  key := "category"
  label := "Categories"
  lookups := []
  paths := ⟨"/category", "/category", some (idPath P "/category"), some (idPath P "/category")⟩
  searchKeys := ["name_uz", "name_ru", "name_en", "slug"]
  requiredFields := ["name_uz", "slug"]
  rowTitle := category.rowTitle P
  makeEmpty := category.makeEmpty P
  makeFromRow := category.makeFromRow P
  toPayload := category.toPayload P

/-- The function `makeEmpty` of `director`. -/
def director.makeEmpty : JsObj N :=
  [("full_name", .str ""),
   ("photo_url", .str ""),
   ("biography", .str ""),
   ("country", .str "")]

/-- The function `makeFromRow` of `director`. -/
def director.makeFromRow (r : JsObj N) : JsObj N :=
  [("full_name", nullish (get r "full_name") (.str "")),
   ("photo_url", nullish (get r "photo_url") (.str "")),
   ("biography", nullish (get r "biography") (.str "")),
   ("country", nullish (get r "country") (.str ""))]

/-- The function `toPayload` of `director`. -/
def director.toPayload (P : NumOps N) (f : JsObj N) : JsObj N :=
  [("full_name", asString P (get f "full_name")),
   ("photo_url", asString P (get f "photo_url")),
   ("biography", asString P (get f "biography")),
   ("country", asString P (get f "country"))]

/-- The function `rowTitle` of `director`: `r.full_name || r.id`. -/
def director.rowTitle (P : NumOps N) (r : JsObj N) : JsVal N :=
  orElse P (get r "full_name") (get r "id")

/-- The descriptor of `director`. -/
def director.resource (P : NumOps N) : Resource N where
  key := "director"
  label := "Directors"
  lookups := []
  paths := ⟨"/director", "/director", some (idPath P "/director"), some (idPath P "/director")⟩
  searchKeys := ["full_name", "country", "biography"]
  requiredFields := ["full_name"]
  rowTitle := director.rowTitle P
  makeEmpty := director.makeEmpty
  makeFromRow := director.makeFromRow
  toPayload := director.toPayload P

/-- The function `makeEmpty` of `genre`. -/
def genre.makeEmpty : JsObj N :=
  [("name_uz", .str ""),
   ("name_ru", .str ""),
   ("name_en", .str ""),
   ("slug", .str ""),
   ("icon", .str ""),
   ("is_active", .bool true),
   ("autoSlug", .bool true)]

/-- The function `makeFromRow` of `genre`. -/
def genre.makeFromRow (P : NumOps N) (r : JsObj N) : JsObj N :=
  [("name_uz", nullish (get r "name_uz") (.str "")),
   ("name_ru", nullish (get r "name_ru") (.str "")),
   ("name_en", nullish (get r "name_en") (.str "")),
   ("slug", nullish (get r "slug") (.str "")),
   ("icon", nullish (get r "icon") (.str "")),
   ("is_active", asBool P (get r "is_active")),
   ("autoSlug", .bool false)]

/-- The function `toPayload` of `genre`. -/
def genre.toPayload (P : NumOps N) (f : JsObj N) : JsObj N :=
  [("name_uz", asString P (get f "name_uz")),
   ("name_ru", asString P (get f "name_ru")),
   ("name_en", asString P (get f "name_en")),
   ("slug", asString P (get f "slug")),
   ("icon", asString P (get f "icon")),
   ("is_active", asBool P (get f "is_active"))]

/-- The function `rowTitle` of `genre`: `r.name_uz || r.slug || r.id`. -/
def genre.rowTitle (P : NumOps N) (r : JsObj N) : JsVal N :=
  orElse P (orElse P (get r "name_uz") (get r "slug")) (get r "id")

/-- The descriptor of `genre`. -/
def genre.resource (P : NumOps N) : Resource N where
  key := "genre"
  label := "Genres"
  lookups := []
  paths := ⟨"/genre", "/genre", some (idPath P "/genre"), some (idPath P "/genre")⟩
  searchKeys := ["name_uz", "name_ru", "name_en", "slug", "icon"]
  requiredFields := ["name_uz", "slug"]
  rowTitle := genre.rowTitle P
  makeEmpty := genre.makeEmpty
  makeFromRow := genre.makeFromRow P
  toPayload := genre.toPayload P

/-- The function `makeEmpty` of `movie`. -/
def movie.makeEmpty (P : NumOps N) : JsObj N :=
  [("title_uz", .str ""),
   ("title_ru", .str ""),
   ("title_en", .str ""),
   ("description_uz", .str ""),
   ("description_ru", .str ""),
   ("description_en", .str ""),
   ("poster_url", .str ""),
   ("banner_url", .str ""),
   ("trailer_url", .str ""),
   ("video_url", .str ""),
   ("duration_minutes", .num P.zero),
   ("release_year", .num P.zero),
   ("imdb_rating", .num P.zero),
   ("age_rating", .str ""),
   ("country", .str ""),
   ("language", .str ""),
   ("is_premium", .bool false),
   ("is_featured", .bool false),
   ("view_count", .num P.zero),
   ("updated_at", .num P.zero),
   ("is_active", .bool true),
   ("created_by", .num P.zero)]

/-- The function `makeFromRow` of `movie`. -/
def movie.makeFromRow (P : NumOps N) (r : JsObj N) : JsObj N :=
  [("title_uz", nullish (get r "title_uz") (.str "")),
   ("title_ru", nullish (get r "title_ru") (.str "")),
   ("title_en", nullish (get r "title_en") (.str "")),
   ("description_uz", nullish (get r "description_uz") (.str "")),
   ("description_ru", nullish (get r "description_ru") (.str "")),
   ("description_en", nullish (get r "description_en") (.str "")),
   ("poster_url", nullish (get r "poster_url") (.str "")),
   ("banner_url", nullish (get r "banner_url") (.str "")),
   ("trailer_url", nullish (get r "trailer_url") (.str "")),
   ("video_url", nullish (get r "video_url") (.str "")),
   ("duration_minutes", nullish (get r "duration_minutes") (.num P.zero)),
   ("release_year", nullish (get r "release_year") (.num P.zero)),
   ("imdb_rating", nullish (get r "imdb_rating") (.num P.zero)),
   ("age_rating", nullish (get r "age_rating") (.str "")),
   ("country", nullish (get r "country") (.str "")),
   ("language", nullish (get r "language") (.str "")),
   ("is_premium", asBool P (get r "is_premium")),
   ("is_featured", asBool P (get r "is_featured")),
   ("view_count", nullish (get r "view_count") (.num P.zero)),
   ("updated_at", nullish (get r "updated_at") (.num P.zero)),
   ("is_active", asBool P (get r "is_active")),
   ("created_by", nullish (get r "created_by") (.num P.zero))]

/-- The function `toPayload` of `movie`. -/
def movie.toPayload (P : NumOps N) (f : JsObj N) : JsObj N :=
  [("title_uz", asString P (get f "title_uz")),
   ("title_ru", asString P (get f "title_ru")),
   ("title_en", asString P (get f "title_en")),
   ("description_uz", asString P (get f "description_uz")),
   ("description_ru", asString P (get f "description_ru")),
   ("description_en", asString P (get f "description_en")),
   ("poster_url", asString P (get f "poster_url")),
   ("banner_url", asString P (get f "banner_url")),
   ("trailer_url", asString P (get f "trailer_url")),
   ("video_url", asString P (get f "video_url")),
   ("duration_minutes", asNumber P (get f "duration_minutes")),
   ("release_year", asNumber P (get f "release_year")),
   ("imdb_rating", asNumber P (get f "imdb_rating")),
   ("age_rating", asString P (get f "age_rating")),
   ("country", asString P (get f "country")),
   ("language", asString P (get f "language")),
   ("is_premium", asBool P (get f "is_premium")),
   ("is_featured", asBool P (get f "is_featured")),
   ("view_count", asNumber P (get f "view_count")),
   ("updated_at", asNumber P (get f "updated_at")),
   ("is_active", asBool P (get f "is_active")),
   ("created_by", asNumber P (get f "created_by"))]

/-- The function `rowTitle` of `movie`: `r.title_uz || r.title_en || r.id`. -/
def movie.rowTitle (P : NumOps N) (r : JsObj N) : JsVal N :=
  orElse P (orElse P (get r "title_uz") (get r "title_en")) (get r "id")

/-- The descriptor of `movie`. -/
def movie.resource (P : NumOps N) : Resource N where
  key := "movie"
  label := "Movies"
  lookups := []
  paths := ⟨"/movie", "/movie", some (idPath P "/movie"), some (idPath P "/movie")⟩
  searchKeys := ["title_uz", "title_ru", "title_en", "country", "language"]
  requiredFields := ["title_uz"]
  rowTitle := movie.rowTitle P
  makeEmpty := movie.makeEmpty P
  makeFromRow := movie.makeFromRow P
  toPayload := movie.toPayload P

/-- The function `makeEmpty` of `movie_actor`. -/
def movie_actor.makeEmpty : JsObj N :=
  [("movie_id", .str ""),
   ("actor_id", .str ""),
   ("role", .str "")]

/-- The function `makeFromRow` of `movie_actor`. -/
def movie_actor.makeFromRow (r : JsObj N) : JsObj N :=
  [("movie_id", nullish (get r "movie_id") (.str "")),
   ("actor_id", nullish (get r "actor_id") (.str "")),
   ("role", nullish (get r "role") (.str ""))]

/-- The function `toPayload` of `movie_actor`. -/
def movie_actor.toPayload (P : NumOps N) (f : JsObj N) : JsObj N :=
  [("movie_id", asString P (get f "movie_id")),
   ("actor_id", asString P (get f "actor_id")),
   ("role", asString P (get f "role"))]

/-- The function `rowTitle` of `movie_actor`: `r.role || r.id`. -/
def movie_actor.rowTitle (P : NumOps N) (r : JsObj N) : JsVal N :=
  orElse P (get r "role") (get r "id")

/-- The descriptor of `movie_actor`. -/
def movie_actor.resource (P : NumOps N) : Resource N where
  key := "movie_actor"
  label := "Movie Actors"
  lookups := [("movies", "/movie"), ("actors", "/actor")]
  paths := ⟨"/movie_actor", "/movie_actor", some (idPath P "/movie_actor"), some (idPath P "/movie_actor")⟩
  searchKeys := ["movie_id", "actor_id", "role"]
  requiredFields := ["movie_id", "actor_id"]
  rowTitle := movie_actor.rowTitle P
  makeEmpty := movie_actor.makeEmpty
  makeFromRow := movie_actor.makeFromRow
  toPayload := movie_actor.toPayload P

/-- The function `makeEmpty` of `movie_category`. -/
def movie_category.makeEmpty : JsObj N :=
  [("movie_id", .str ""),
   ("category_id", .str "")]

/-- The function `makeFromRow` of `movie_category`. -/
def movie_category.makeFromRow (r : JsObj N) : JsObj N :=
  [("movie_id", nullish (get r "movie_id") (.str "")),
   ("category_id", nullish (get r "category_id") (.str ""))]

/-- The function `toPayload` of `movie_category`. -/
def movie_category.toPayload (P : NumOps N) (f : JsObj N) : JsObj N :=
  [("movie_id", asString P (get f "movie_id")),
   ("category_id", asString P (get f "category_id"))]

/-- The function `rowTitle` of `movie_category`: `r.id`. -/
def movie_category.rowTitle (r : JsObj N) : JsVal N :=
  get r "id"

/-- The descriptor of `movie_category`. -/
def movie_category.resource (P : NumOps N) : Resource N where
  key := "movie_category"
  label := "Movie Categories"
  lookups := [("movies", "/movie"), ("categories", "/category")]
  paths := ⟨"/movie_category", "/movie_category", some (idPath P "/movie_category"), some (idPath P "/movie_category")⟩
  searchKeys := ["movie_id", "category_id"]
  requiredFields := ["movie_id", "category_id"]
  rowTitle := movie_category.rowTitle
  makeEmpty := movie_category.makeEmpty
  makeFromRow := movie_category.makeFromRow
  toPayload := movie_category.toPayload P

/-- The function `makeEmpty` of `movie_director`. -/
def movie_director.makeEmpty : JsObj N :=
  [("movie_id", .str ""),
   ("director_id", .str "")]

/-- The function `makeFromRow` of `movie_director`. -/
def movie_director.makeFromRow (r : JsObj N) : JsObj N :=
  [("movie_id", nullish (get r "movie_id") (.str "")),
   ("director_id", nullish (get r "director_id") (.str ""))]

/-- The function `toPayload` of `movie_director`. -/
def movie_director.toPayload (P : NumOps N) (f : JsObj N) : JsObj N :=
  [("movie_id", asString P (get f "movie_id")),
   ("director_id", asString P (get f "director_id"))]

/-- The function `rowTitle` of `movie_director`: `r.id`. -/
def movie_director.rowTitle (r : JsObj N) : JsVal N :=
  get r "id"

/-- The descriptor of `movie_director`. -/
def movie_director.resource (P : NumOps N) : Resource N where
  key := "movie_director"
  label := "Movie Directors"
  lookups := []
  paths := ⟨"/movie_director", "/movie_director", some (idPath P "/movie_director"), some (idPath P "/movie_director")⟩
  searchKeys := ["movie_id", "director_id"]
  requiredFields := ["movie_id", "director_id"]
  rowTitle := movie_director.rowTitle
  makeEmpty := movie_director.makeEmpty
  makeFromRow := movie_director.makeFromRow
  toPayload := movie_director.toPayload P

/-- The function `makeEmpty` of `movie_genre`. -/
def movie_genre.makeEmpty : JsObj N :=
  [("movie_id", .str ""),
   ("genre_id", .str "")]

/-- The function `makeFromRow` of `movie_genre`. -/
def movie_genre.makeFromRow (r : JsObj N) : JsObj N :=
  [("movie_id", nullish (get r "movie_id") (.str "")),
   ("genre_id", nullish (get r "genre_id") (.str ""))]

/-- The function `toPayload` of `movie_genre`. -/
def movie_genre.toPayload (P : NumOps N) (f : JsObj N) : JsObj N :=
  [("movie_id", asString P (get f "movie_id")),
   ("genre_id", asString P (get f "genre_id"))]

/-- The function `rowTitle` of `movie_genre`: `r.id`. -/
def movie_genre.rowTitle (r : JsObj N) : JsVal N :=
  get r "id"

/-- The descriptor of `movie_genre`. -/
def movie_genre.resource (P : NumOps N) : Resource N where
  key := "movie_genre"
  label := "Movie Genres"
  lookups := [("movies", "/movie"), ("genres", "/genre")]
  paths := ⟨"/movie_genre", "/movie_genre", some (idPath P "/movie_genre"), some (idPath P "/movie_genre")⟩
  searchKeys := ["movie_id", "genre_id"]
  requiredFields := ["movie_id", "genre_id"]
  rowTitle := movie_genre.rowTitle
  makeEmpty := movie_genre.makeEmpty
  makeFromRow := movie_genre.makeFromRow
  toPayload := movie_genre.toPayload P

/-- The nine descriptors, in the order of `createResources`. -/
def createResources (P : NumOps N) : List (Resource N) :=
  [actor.resource P, category.resource P, director.resource P, genre.resource P,
   movie.resource P, movie_actor.resource P, movie_category.resource P,
   movie_director.resource P, movie_genre.resource P]

end Descriptors

/-! ## The generic controller `ResourcePage` -/

section Controller

variable {N : Type}

/-- The state variable `mode`: `"create"` or `"edit"`. -/
inductive Mode where
  | create
  | edit
  deriving DecidableEq

/-- A notification `{ type, title, message }`. -/
structure Toast where
  type : Str
  title : Str
  message : Str
  deriving DecidableEq

/-- The HTTP methods used by `apiFetch`. -/
inductive Method where
  | GET
  | POST
  | PATCH
  | DELETE
  deriving DecidableEq

/-- A call `apiFetch(path, { method, body })`. -/
structure Request (N : Type) where
  method : Method
  path : Str
  body : Option (JsObj N)

/-- The remote store seen through `apiFetch`: a request either resolves or is rejected
with an error message. -/
abbrev Server (N : Type) := Request N → Except Str Unit

/-- The React state of `ResourcePage`. -/
structure State (N : Type) where
  query : Str
  toast : Option Toast
  modalOpen : Bool
  mode : Mode
  current : Option (JsObj N)
  form : JsObj N

/-- What a handler did: the new state, the requests it issued (in order) and the
resource keys whose cached list it invalidated. -/
structure Outcome (N : Type) where
  state : State N
  requests : List (Request N)
  invalidated : List Str

/-- The notification setter `showToast(t)`; the dismiss timer is not part of the state. -/
def showToast (st : State N) (t : Toast) : State N := { st with toast := some t }

/-- The test of `submit` on a payload value `v`:
`v === undefined || v === null || String(v).trim() === ""`. -/
def isMissing (P : NumOps N) (v : JsVal N) : Bool :=
  match v with
  | .undefined => true
  | .null => true
  | w => (trim (jsString P w)).isEmpty

/-- The list `missing` of `submit`: the required fields absent from the payload. -/
def missingFields (P : NumOps N) (R : Resource N) (payload : JsObj N) : List Str :=
  R.requiredFields.filter fun f => isMissing P (get payload f)

/-- The function `mutationFn` of `saveMutation`: its result and the requests issued. -/
def saveMutation (R : Resource N) (server : Server N) (payload : JsObj N) (itemMode : Mode)
    (id : JsVal N) : Except Str Unit × List (Request N) :=
  match itemMode with
  | .create =>
    let rq : Request N := ⟨.POST, R.paths.create, some payload⟩
    (server rq, [rq])
  | .edit =>
    match R.paths.update with
    | none => (.error "Update endpoint is not configured for this resource", [])
    | some update =>
      let rq : Request N := ⟨.PATCH, update id, some payload⟩
      (server rq, [rq])

/-- The expression `current?.id`. -/
def currentId (current : Option (JsObj N)) : JsVal N :=
  match current with
  | none => .undefined
  | some row => get row "id"

/-- The handler `submit` of `ResourcePage`. -/
def submit (P : NumOps N) (R : Resource N) (server : Server N) (st : State N) : Outcome N :=
  let payload := R.toPayload st.form
  let missing := missingFields P R payload
  if missing.length ≠ 0 then
    { state := showToast st ⟨"error", "Validation error", "Required: " ++ join ", " missing⟩
      requests := []
      invalidated := [] }
  else
    match saveMutation R server payload st.mode (currentId st.current) with
    | (.ok _, rqs) =>
      { state :=
          { showToast st
              ⟨"success", if st.mode = .create then "Created" else "Updated", "Saved"⟩ with
            modalOpen := false }
        requests := rqs
        invalidated := [R.key] }
    | (.error message, rqs) =>
      { state := showToast st ⟨"error", "Save failed", message⟩
        requests := rqs
        invalidated := [] }

end Controller

/-! ## The forms of category and genre -/

section SlugForms

variable {N : Type}

/-- The edits offered by `renderForm` of `category`: one per input, with the value handed
to `onChange`, and the button `Re-enable auto-slug`. -/
inductive CategoryEdit where
  | name_uz (v : Str)
  | slug (v : Str)
  | name_ru (v : Str)
  | name_en (v : Str)
  | order_number (v : Str)
  | is_active (v : Bool)
  | reenableAutoSlug

/-- The edits offered by `renderForm` of `genre`. -/
inductive GenreEdit where
  | name_uz (v : Str)
  | slug (v : Str)
  | name_ru (v : Str)
  | name_en (v : Str)
  | icon (v : Str)
  | is_active (v : Bool)
  | reenableAutoSlug

/-- The `onChange` of the input `Name (UZ)`: `next = { ...p, name_uz: v }`, and
`next.slug = toSlug(v)` when `p.autoSlug` is truthy. -/
def editName (P : NumOps N) (p : JsObj N) (v : Str) : JsObj N :=
  let next := set p "name_uz" (.str v)
  if truthy P (get p "autoSlug") then set next "slug" (.str (toSlug P (.str v))) else next

/-- The `onChange` of the input `Slug`: `{ ...p, slug: toSlug(v), autoSlug: false }`. -/
def editSlug (P : NumOps N) (p : JsObj N) (v : Str) : JsObj N :=
  set (set p "slug" (.str (toSlug P (.str v)))) "autoSlug" (.bool false)

/-- The `onClick` of `Re-enable auto-slug`:
`{ ...p, autoSlug: true, slug: toSlug(p.name_uz) }`. -/
def reenableAutoSlug (P : NumOps N) (p : JsObj N) : JsObj N :=
  set (set p "autoSlug" (.bool true)) "slug" (.str (toSlug P (get p "name_uz")))

/-- The state update of one edit of the category form. -/
def category.applyEdit (P : NumOps N) (p : JsObj N) : CategoryEdit → JsObj N
  | .name_uz v => editName P p v
  | .slug v => editSlug P p v
  | .name_ru v => set p "name_ru" (.str v)
  | .name_en v => set p "name_en" (.str v)
  | .order_number v => set p "order_number" (.str v)
  | .is_active v => set p "is_active" (.bool v)
  | .reenableAutoSlug => reenableAutoSlug P p

/-- The state update of one edit of the genre form. -/
def genre.applyEdit (P : NumOps N) (p : JsObj N) : GenreEdit → JsObj N
  | .name_uz v => editName P p v
  | .slug v => editSlug P p v
  | .name_ru v => set p "name_ru" (.str v)
  | .name_en v => set p "name_en" (.str v)
  | .icon v => set p "icon" (.str v)
  | .is_active v => set p "is_active" (.bool v)
  | .reenableAutoSlug => reenableAutoSlug P p

/-- Is the edit a change of the slug input. -/
def CategoryEdit.isSlug : CategoryEdit → Bool
  | .slug _ => true
  | _ => false

/-- Is the edit the button `Re-enable auto-slug`. -/
def CategoryEdit.isReenable : CategoryEdit → Bool
  | .reenableAutoSlug => true
  | _ => false

/-- Is the edit a change of the slug input. -/
def GenreEdit.isSlug : GenreEdit → Bool
  | .slug _ => true
  | _ => false

/-- Is the edit the button `Re-enable auto-slug`. -/
def GenreEdit.isReenable : GenreEdit → Bool
  | .reenableAutoSlug => true
  | _ => false

/-- The category form after a sequence of edits, applied from left to right. -/
def category.applyEdits (P : NumOps N) (p : JsObj N) (es : List CategoryEdit) : JsObj N :=
  es.foldl (category.applyEdit P) p

/-- The genre form after a sequence of edits, applied from left to right. -/
def genre.applyEdits (P : NumOps N) (p : JsObj N) (es : List GenreEdit) : JsObj N :=
  es.foldl (genre.applyEdit P) p

/-- The slug is suspended at `x`: `autoSlug` is falsy and `slug` is `x`. -/
def Suspended (P : NumOps N) (x : JsVal N) (q : JsObj N) : Prop :=
  truthy P (get q "autoSlug") = false ∧ get q "slug" = x

/-- Auto-derivation is on: `autoSlug` is truthy. -/
def AutoOn (P : NumOps N) (q : JsObj N) : Prop := truthy P (get q "autoSlug") = true

end SlugForms

/-! ## A concrete number instance -/

/-- Decimal digits of `n`, most significant first; `fuel` bounds the number of digits. -/
def natDigits : Nat → Nat → Str
  | 0, _ => []
  | fuel + 1, n =>
    if n < 10 then [Char.ofNat (48 + n)]
    else natDigits fuel (n / 10) ++ [Char.ofNat (48 + n % 10)]

/-- Value of a string of decimal digits, `none` when a character is not a digit or the
string is empty; `acc` is the value read so far. -/
def readDigits : Option Nat → Str → Option Nat
  | acc, [] => acc
  | acc, c :: cs =>
    if 48 ≤ c.toNat ∧ c.toNat ≤ 57 then readDigits (some (acc.getD 0 * 10 + (c.toNat - 48))) cs
    else none

/-- The integers of the JavaScript number type together with `NaN` (`none`): `String(n)`
is the decimal numeral, `Number(s)` reads a trimmed decimal integer numeral (the empty
string as `0`) and is `NaN` on every other string, the non-integer numerals included. -/
def decNum : NumOps (Option Int) where
  zero := some 0
  one := some 1
  nan := none
  ofString := fun s =>
    match trim s with
    | [] => some 0
    | '-' :: ds => (readDigits none ds).map fun n => - (n : Int)
    | '+' :: ds => (readDigits none ds).map fun n => (n : Int)
    | ds => (readDigits none ds).map fun n => (n : Int)
  toStr := fun n =>
    match n with
    | none => "NaN"
    | some (Int.ofNat k) => natDigits (k + 1) k
    | some (Int.negSucc k) => '-' :: natDigits (k + 2) (k + 1)
  truthy := fun n =>
    match n with
    | none => false
    | some k => k != 0

/-! ## The handler `remove` and the fetch wrapper `apiFetch` -/

section RemoveAndFetch

variable {N : Type}

/-- The text handed to `window.confirm` by `remove`: the template
`Delete "${resource.rowTitle(row)}"?`, an empty line, `This cannot be undone.`. -/
def confirmText (P : NumOps N) (R : Resource N) (row : JsObj N) : Str :=
  "Delete \"" ++ jsString P (R.rowTitle row) ++ "\"?\n\nThis cannot be undone."

/-- The function `mutationFn` of `removeMutation`: its result and the requests issued.
Calling an absent `paths.remove` throws before any request. -/
def removeMutation (R : Resource N) (server : Server N) (id : JsVal N) :
    Except Str Unit × List (Request N) :=
  match R.paths.remove with
  | none => (.error "resource.paths.remove is not a function", [])
  | some remove =>
    let rq : Request N := ⟨.DELETE, remove id, none⟩
    (server rq, [rq])

/-- The handler `remove` of `ResourcePage`; `confirm` is the answer of `window.confirm`
to a prompt. -/
def remove (P : NumOps N) (R : Resource N) (server : Server N) (confirm : Str → Bool)
    (st : State N) (row : JsObj N) : Outcome N :=
  let ok := confirm (confirmText P R row)
  if !ok then { state := st, requests := [], invalidated := [] }
  else
    match removeMutation R server (get row "id") with
    | (.ok _, rqs) =>
      { state := showToast st ⟨"success", "Deleted", "Removed"⟩
        requests := rqs
        invalidated := [R.key] }
    | (.error message, rqs) =>
      { state := showToast st ⟨"error", "Delete failed", message⟩
        requests := rqs
        invalidated := [] }

/-- The value `data` of `apiFetch`: a scalar (`null`, a JSON scalar, or the raw text of
a body that is not JSON), a JSON object with scalar fields, or a JSON array of such
objects. -/
inductive Data (N : Type) where
  | scalar (v : JsVal N)
  | object (o : JsObj N)
  | array (rows : List (JsObj N))

/-- The function `JSON.parse` on a body text: `none` when it throws. -/
abbrev JsonParse (N : Type) := Str → Option (Data N)

/-- An HTTP response as `apiFetch` reads it: `res.status` and `await res.text()`. -/
structure Response where
  status : Nat
  text : Str

/-- The flag `res.ok`: the status is in the range 200 to 299. -/
def Response.ok (res : Response) : Bool := 200 ≤ res.status && res.status ≤ 299

/-- The error thrown by `apiFetch`: `err.message`, `err.status`, `err.payload`. -/
structure ApiError (N : Type) where
  message : Str
  status : Nat
  payload : Data N

/-- Truthiness of `data`: objects and arrays are truthy. -/
def Data.truthy (P : NumOps N) : Data N → Bool
  | .scalar v => AdminMovie.truthy P v
  | .object _ => true
  | .array _ => true

/-- The property read `data.k` for one of the names `message`, `error`, `detail`:
`undefined` unless `data` is an object holding the field. -/
def Data.field : Data N → Str → JsVal N
  | .object o, k => get o k
  | _, _ => .undefined

/-- The body reading of `apiFetch`: `null` for an empty text, the parsed value when
`JSON.parse` succeeds, the text itself when it throws. -/
def readBody (parse : JsonParse N) (text : Str) : Data N :=
  if text.isEmpty then .scalar .null
  else
    match parse text with
    | some data => data
    | none => .scalar (.str text)

/-- The synthesized message, the template `Request failed (${res.status})`. -/
def requestFailed (status : Nat) : Str :=
  "Request failed (" ++ natDigits (status + 1) status ++ ")"

/-- The value `msg` of `apiFetch`:
`(data && (data.message || data.error || data.detail)) || "Request failed (...)"`. -/
def errorMsg (P : NumOps N) (data : Data N) (status : Nat) : JsVal N :=
  let picked : JsVal N :=
    orElse P (orElse P (data.field "message") (data.field "error")) (data.field "detail")
  if data.truthy P && AdminMovie.truthy P picked then picked else .str (requestFailed status)

/-- The function `apiFetch` from the response on: the returned `data`, or the thrown
error, whose message is `String(msg)`. -/
def apiFetch (P : NumOps N) (parse : JsonParse N) (res : Response) :
    Except (ApiError N) (Data N) :=
  let data := readBody parse res.text
  if !res.ok then
    .error { message := jsString P (errorMsg P data res.status), status := res.status,
             payload := data }
  else .ok data

/-- The remote store seen through `apiFetch`, for a transport `http` that answers every
request with a response. -/
def throughFetch (P : NumOps N) (parse : JsonParse N) (http : Request N → Response) :
    Server N := fun rq =>
  match apiFetch P parse (http rq) with
  | .ok _ => .ok ()
  | .error e => .error e.message

end RemoveAndFetch

/-! ## Query data, form sessions, row actions and column renderers -/

section View

variable {N : Type}

/-- The `select` option of the list query and of every lookup query:
`Array.isArray(data) ? data : []`. -/
def select : Data N → List (JsObj N)
  | .array rows => rows
  | _ => []

/-- The data a query holds once a fetch has settled, as `useQuery` keeps it: the value
`apiFetch` resolved with, or, when the fetch was rejected, the data held before (none when
no fetch had succeeded). -/
def settle (held : Option (Data N)) (r : Except (ApiError N) (Data N)) : Option (Data N) :=
  match r with
  | .ok d => some d
  | .error _ => held

/-- The data a query holds after its fetches, in order: the first load, then a refetch for
every `refresh` or invalidation; none before the first reply. -/
def heldAfter (fetches : List (Except (ApiError N) (Data N))) : Option (Data N) :=
  fetches.foldl settle none

/-- The value `query.data ?? []` for the data `held` by the query (`none`: no data yet),
as in `rows` and in each entry of `lookups`; `query.data` is `select` of the held data. -/
def rowsOf (held : Option (Data N)) : List (JsObj N) :=
  match held.map select with
  | none => []
  | some rows => rows

/-- An object whose fields are sequences of records, such as `lookups`. -/
abbrev Lookups (N : Type) := List (Str × List (JsObj N))

/-- The field update of `Object.fromEntries`: a later entry of the same key wins. -/
def Lookups.put (o : Lookups N) (k : Str) (v : List (JsObj N)) : Lookups N :=
  match o with
  | [] => [(k, v)]
  | (k', v') :: rest => if k' = k then (k, v) :: rest else (k', v') :: Lookups.put rest k v

/-- The expression `lookups.k ?? []`. -/
def Lookups.getOrEmpty (o : Lookups N) (k : Str) : List (JsObj N) :=
  match o with
  | [] => []
  | (k', v) :: rest => if k' = k then v else Lookups.getOrEmpty rest k

/-- The entries `[l.key, lookupQueries[i]?.data ?? []]`, for the lookup declarations from
index `i` on; `held` lists the data held by the lookup queries, by index. -/
def lookupEntries (lookupDefs : List (Str × Str)) (held : List (Option (Data N))) :
    List (Str × List (JsObj N)) :=
  match lookupDefs, held with
  | [], _ => []
  | (k, _) :: defs, [] => (k, []) :: lookupEntries defs []
  | (k, _) :: defs, h :: hs => (k, rowsOf h) :: lookupEntries defs hs

/-- The object `lookups` of `ResourcePage`. -/
def lookups (lookupDefs : List (Str × Str)) (held : List (Option (Data N))) : Lookups N :=
  (lookupEntries lookupDefs held).foldl (fun o e => Lookups.put o e.1 e.2) []

/-- The handler `openCreate`. -/
def openCreate (R : Resource N) (st : State N) : State N :=
  { st with mode := .create, current := none, form := R.makeEmpty, modalOpen := true }

/-- The handler `openEdit`. -/
def openEdit (R : Resource N) (st : State N) (row : JsObj N) : State N :=
  { st with mode := .edit, current := some row, form := R.makeFromRow row, modalOpen := true }

/-- A button of the `Actions` cell of a table row. -/
inductive RowAction where
  | edit
  | delete
  deriving DecidableEq

/-- The buttons of the `Actions` cell: `Edit` when `resource.paths.update` is present,
then `Delete`. -/
def rowActions (R : Resource N) : List RowAction :=
  (if R.paths.update.isSome then [RowAction.edit] else []) ++ [RowAction.delete]

/-- Strict equality `a === b`, with `eqN` the equality of numbers. -/
def strictEq (eqN : N → N → Bool) : JsVal N → JsVal N → Bool
  | .undefined, .undefined => true
  | .null, .null => true
  | .bool a, .bool b => a == b
  | .num a, .num b => eqN a b
  | .str a, .str b => a == b
  | _, _ => false

/-- The expression `(lookups.k ?? []).find((x) => x.id === id)`. -/
def findById (eqN : N → N → Bool) (lookups : Lookups N) (k : Str) (id : JsVal N) :
    Option (JsObj N) :=
  (Lookups.getOrEmpty lookups k).find? fun x => strictEq eqN (get x "id") id

/-- The optional read `m?.k`. -/
def optGet (m : Option (JsObj N)) (k : Str) : JsVal N :=
  match m with
  | none => .undefined
  | some o => get o k

/-- The renderer of the movie column of the three join tables:
`m?.title_uz || m?.title_en || r.movie_id`, `m` the movie of id `r.movie_id`. -/
def renderMovie (P : NumOps N) (eqN : N → N → Bool) (r : JsObj N) (lookups : Lookups N) :
    JsVal N :=
  let m := findById eqN lookups "movies" (get r "movie_id")
  orElse P (orElse P (optGet m "title_uz") (optGet m "title_en")) (get r "movie_id")

/-- The renderer of the actor column of `movie_actor`: `a?.full_name || r.actor_id`. -/
def renderActor (P : NumOps N) (eqN : N → N → Bool) (r : JsObj N) (lookups : Lookups N) :
    JsVal N :=
  let a := findById eqN lookups "actors" (get r "actor_id")
  orElse P (optGet a "full_name") (get r "actor_id")

/-- The renderer of the category column of `movie_category`:
`c?.name_uz || c?.name_en || c?.slug || r.category_id`. -/
def renderCategory (P : NumOps N) (eqN : N → N → Bool) (r : JsObj N) (lookups : Lookups N) :
    JsVal N :=
  let c := findById eqN lookups "categories" (get r "category_id")
  orElse P (orElse P (orElse P (optGet c "name_uz") (optGet c "name_en")) (optGet c "slug"))
    (get r "category_id")

/-- The renderer of the genre column of `movie_genre`:
`g?.name_uz || g?.name_en || g?.slug || r.genre_id`. -/
def renderGenre (P : NumOps N) (eqN : N → N → Bool) (r : JsObj N) (lookups : Lookups N) :
    JsVal N :=
  let g := findById eqN lookups "genres" (get r "genre_id")
  orElse P (orElse P (orElse P (optGet g "name_uz") (optGet g "name_en")) (optGet g "slug"))
    (get r "genre_id")

end View

/-! ## The base path and the development proxy -/

/-- The constant `XANO_BASE`. -/
def XANO_BASE : Str := "https://x8ki-letl-twmt.n7.xano.io/api:j6hO02gL"

/-- The constant `API_BASE`, for the value `dev` of `import.meta.env.DEV`. -/
def API_BASE (dev : Bool) : Str := if dev then "/xano" else XANO_BASE

/-- The address fetched by `apiFetch(path)`: the template `${API_BASE}${path}`. -/
def fetchUrl (dev : Bool) (path : Str) : Str := API_BASE dev ++ path

/-- The `target` of the proxy entry `/xano` of `vite.config.js`. -/
def proxyTarget : Str := "https://x8ki-letl-twmt.n7.xano.io"

/-- The `rewrite` of the proxy entry: a leading `/xano` is replaced by `/api:j6hO02gL`. -/
def rewrite (path : Str) : Str :=
  if startsWith path "/xano" then "/api:j6hO02gL" ++ path.drop 5 else path

/-! ## The notification and its dismiss timer -/

/-- The notification slot over time. `now` is the clock in milliseconds, `timers` the
pending timeouts (handle, due time), `nextHandle` the next handle of `setTimeout`, and
`fns` the property `_t` of the function `showToast` created by each render, oldest
first: `showToast` is a constant of the component body, so every render makes a new
function object, on which `_t` is not set. -/
structure ToastClock where
  now : Nat
  toast : Option Toast
  timers : List (Nat × Nat)
  nextHandle : Nat
  fns : List (Option Nat)
  deriving DecidableEq

/-- The first render: no notification, no timer, one function `showToast`. -/
def ToastClock.init : ToastClock :=
  { now := 0, toast := none, timers := [], nextHandle := 1, fns := [none] }

/-- A render of `ResourcePage` after a state change: a new function `showToast`. -/
def ToastClock.render (s : ToastClock) : ToastClock := { s with fns := s.fns ++ [none] }

/-- The call `window.clearTimeout(h)`; clearing `undefined` does nothing. -/
def ToastClock.clearTimeout (s : ToastClock) (h : Option Nat) : ToastClock :=
  match h with
  | none => s
  | some id => { s with timers := s.timers.filter fun t => t.1 != id }

/-- The call `showToast(t)` on the function object created by render `fn`:
`setToast(t)`, `clearTimeout(showToast._t)`, and `showToast._t = setTimeout(.., 2600)`;
the state change is followed by a render. -/
def ToastClock.showToast (s : ToastClock) (fn : Nat) (t : Toast) : ToastClock :=
  let s1 := { s with toast := some t }
  let s2 := s1.clearTimeout ((s1.fns.get? fn).join)
  let s3 : ToastClock :=
    { s2 with
      timers := s2.timers ++ [(s2.nextHandle, s2.now + 2600)]
      nextHandle := s2.nextHandle + 1
      fns := s2.fns.set fn (some s2.nextHandle) }
  s3.render

/-- The clock advances by `ms`: every timeout due by then runs `setToast(null)`. -/
def ToastClock.wait (s : ToastClock) (ms : Nat) : ToastClock :=
  let now := s.now + ms
  let due := s.timers.filter fun t => t.2 ≤ now
  let s1 := { s with now := now, timers := s.timers.filter fun t => ¬ t.2 ≤ now }
  if due.isEmpty then s1 else ({ s1 with toast := none } : ToastClock).render

/-- The button of the notification, `onClose={() => setToast(null)}`. -/
def ToastClock.close (s : ToastClock) : ToastClock :=
  ({ s with toast := none } : ToastClock).render

/-- What happens to the notification slot: `showToast(t)` called on the function of
render `fn`, time passing, or the close button. -/
inductive ToastEvent where
  | show (fn : Nat) (t : Toast)
  | wait (ms : Nat)
  | close

/-- One event. -/
def ToastClock.step (s : ToastClock) : ToastEvent → ToastClock
  | .show fn t => s.showToast fn t
  | .wait ms => s.wait ms
  | .close => s.close

/-- A sequence of events, from the first render. -/
def ToastClock.run (events : List ToastEvent) : ToastClock :=
  events.foldl ToastClock.step ToastClock.init

/-! ## Vocabulary of the statements and sample data -/

/-- A lower-case ASCII letter, a digit, an underscore or a hyphen. -/
def isSlugChar (c : Char) : Bool :=
  let n := c.toNat
  (0x61 ≤ n && n ≤ 0x7A) || (0x30 ≤ n && n ≤ 0x39) || n == 0x5F || n == 0x2D

/-- The string form of the field `k` of the row `r` that the search filter reads:
`String(r[k] ?? "")`, lower-cased. -/
def searchText {N : Type} (P : NumOps N) (f : CaseMap) (r : JsObj N) (k : Str) : Str :=
  toLowerCaseBy f (jsString P (nullish (get r k) (.str "")))

/-- The lower-case forms of the ASCII and of the basic Cyrillic capitals (U+0410 to
U+042F), none of which depends on the context: a mapping to run the filter on the sample
rows. -/
def sampleFold : CaseMap := fun _ c _ =>
  if 0x410 ≤ c.toNat ∧ c.toNat ≤ 0x42F then [Char.ofNat (c.toNat + 32)] else lowerChar c

/-- A category record as the remote store returns it. -/
def komediya : JsObj (Option Int) :=
  [("id", .num (some 7)),
   ("name_uz", .str "Komediya"),
   ("name_ru", .str ""),
   ("name_en", .str "Comedy"),
   ("slug", .str "komediya"),
   ("order_number", .num (some 1)),
   ("is_active", .bool true)]

/-- The category record `Komediya` with its Russian name. -/
def komediyaRu : JsObj (Option Int) :=
  [("id", .num (some 7)),
   ("name_uz", .str "Komediya"),
   ("name_ru", .str "Комедия"),
   ("name_en", .str "Comedy"),
   ("slug", .str "komediya"),
   ("order_number", .num (some 1)),
   ("is_active", .bool true)]

/-- The failure of a request answered with status 500 and no body. -/
def serverDown : ApiError (Option Int) :=
  { message := "Request failed (500)", status := 500, payload := .scalar .null }

/-- A category form as typed by an operator: untrimmed text and a numeral in the number
input. -/
def draftForm : JsObj (Option Int) :=
  [("name_uz", .str "  Komediya "),
   ("name_ru", .str ""),
   ("name_en", .str "Comedy"),
   ("slug", .str "komediya"),
   ("order_number", .str "12"),
   ("is_active", .bool true),
   ("autoSlug", .bool true)]

/-- A record read from a reply in which every field is `null`. -/
def nullRow : JsObj (Option Int) :=
  [("id", .null), ("name_uz", .null), ("slug", .null), ("is_active", .null)]

/-- A category form whose name is blank and whose slug is empty. -/
def blankForm : JsObj (Option Int) :=
  [("name_uz", .str "   "),
   ("name_ru", .str ""),
   ("name_en", .str "Comedy"),
   ("slug", .str ""),
   ("order_number", .str ""),
   ("is_active", .bool true),
   ("autoSlug", .bool false)]

/-- A remote store that accepts every request. -/
def acceptAll : Server (Option Int) := fun _ => .ok ()

/-- The controller with the create form open on the draft `form`. -/
def creating (form : JsObj (Option Int)) : State (Option Int) :=
  { query := "", toast := none, modalOpen := true, mode := .create, current := none,
    form := form }

/-- Edits of the category form that touch neither the slug input nor the re-enable
button: the name is retyped and the flag is switched off. -/
def renameCategory : List CategoryEdit :=
  [.name_uz "Drama", .is_active false, .name_uz "Drama 2"]

/-- Edits of the genre form that touch neither the slug input nor the re-enable button. -/
def renameGenre : List GenreEdit :=
  [.name_uz "Drama", .icon "bi bi-film"]

/-- A remote store that rejects every request with the message `Not found`. -/
def rejectAll : Server (Option Int) := fun _ => .error "Not found"

/-- The controller with the edit form open on the category record `row`. -/
def editing (row : JsObj (Option Int)) : State (Option Int) :=
  { query := "", toast := none, modalOpen := true, mode := .edit, current := some row,
    form := category.makeFromRow decNum row }

/-- An operator who accepts every confirmation prompt. -/
def acceptPrompt : Str → Bool := fun _ => true

/-- An operator who declines every confirmation prompt. -/
def declinePrompt : Str → Bool := fun _ => false

/-- A reader of the few JSON texts of the sample responses: a failure body carrying a
message, the empty object and the empty array. It reads no other text; `OK` and
`<html>` are not JSON. -/
def sampleParse : JsonParse (Option Int) := fun text =>
  if text = "\x7b\"message\":\"Not found\"\x7d" then
    some (.object [("message", .str "Not found")])
  else if text = "\x7b\x7d" then some (.object [])
  else if text = "[]" then some (.array [])
  else none

/-- A descriptor that declares no update path: the category descriptor without
`paths.update`. -/
def noUpdate : Resource (Option Int) :=
  { category.resource decNum with
    paths := { (category.resource decNum).paths with update := none } }

/-- Equality of the numbers of `decNum`: `NaN` differs from itself. -/
def decNumEq : Option Int → Option Int → Bool
  | some a, some b => a == b
  | _, _ => false

/-- A `movie_actor` record linking the movie 3 to the actor 5. -/
def casting : JsObj (Option Int) :=
  [("id", .num (some 1)), ("movie_id", .num (some 3)), ("actor_id", .num (some 5)),
   ("role", .str "Lead")]

/-- Lookup lists in which the movie 3 has an English title only and the actor 5 has an
empty name. -/
def sampleLookups : Lookups (Option Int) :=
  [("movies",
      [[("id", .num (some 2)), ("title_uz", .str "Boshqa")],
       [("id", .num (some 3)), ("title_uz", .str ""), ("title_en", .str "Interstellar")]]),
   ("actors", [[("id", .num (some 5)), ("full_name", .str "")]])]

/-- The notification of a rejected form. -/
def toastA : Toast := ⟨"error", "Validation error", "Required: name_uz"⟩

/-- The notification of a save. -/
def toastB : Toast := ⟨"success", "Created", "Saved"⟩

/-! ## Facts about the string operations -/

theorem lowerChar_ne_nil (c : Char) : lowerChar c ≠ [] := by
  unfold lowerChar
  simp only
  split_ifs <;> simp

theorem toLowerCase_append (a b : Str) :
    toLowerCase (a ++ b) = toLowerCase a ++ toLowerCase b := by
  induction a with
  | nil => rfl
  | cons c cs ih => simp [toLowerCase, ih]

theorem toLowerCase_eq_nil (s : Str) : toLowerCase s = [] ↔ s = [] := by
  cases s with
  | nil => simp [toLowerCase]
  | cons c cs => simp [toLowerCase, lowerChar_ne_nil]

theorem toLowerCase_mono {a b : Str} (h : a <:+: b) : toLowerCase a <:+: toLowerCase b := by
  obtain ⟨u, v, rfl⟩ := h
  rw [toLowerCase_append, toLowerCase_append]
  exact List.infix_append _ _ _

theorem trimEnd_eq_rdropWhile (s : Str) : trimEnd s = s.rdropWhile isSpace := rfl

theorem trim_sub (s : Str) : trim s <:+: s := by
  unfold trim trimStart
  rw [trimEnd_eq_rdropWhile]
  exact (List.rdropWhile_prefix _ _).isInfix.trans (List.dropWhile_suffix _).isInfix

theorem trimEnd_idem (s : Str) : trimEnd (trimEnd s) = trimEnd s := by
  unfold trimEnd
  rw [List.reverse_reverse, List.dropWhile_idempotent]

theorem trimStart_trimEnd_of_fixed (u : Str) (h : trimStart u = u) :
    trimStart (trimEnd u) = trimEnd u := by
  cases u with
  | nil => rfl
  | cons a u =>
    have ha : isSpace a = false := by
      by_contra hc
      simp only [Bool.not_eq_false] at hc
      have hlen := congrArg List.length h
      have hs : (List.dropWhile isSpace u).length ≤ u.length :=
        (List.dropWhile_sublist isSpace).length_le
      simp [trimStart, List.dropWhile_cons, hc] at hlen
      omega
    obtain ⟨w, hw⟩ := List.rdropWhile_prefix isSpace (a :: u)
    rw [trimEnd_eq_rdropWhile]
    cases ht : List.rdropWhile isSpace (a :: u) with
    | nil => rfl
    | cons b t =>
      rw [ht] at hw
      have hb : b = a := by
        simp at hw
        exact hw.1
      subst hb
      simp [trimStart, List.dropWhile_cons, ha]

theorem trim_idem (s : Str) : trim (trim s) = trim s := by
  unfold trim
  have h : trimStart (trimStart s) = trimStart s := List.dropWhile_idempotent _ _
  rw [trimStart_trimEnd_of_fixed _ h, trimEnd_idem]

theorem startsWith_iff (s q : Str) : startsWith s q = true ↔ q <+: s := by
  induction q generalizing s with
  | nil => cases s <;> simp [startsWith]
  | cons d q ih =>
    cases s with
    | nil => simp [startsWith]
    | cons c s =>
      simp only [startsWith, Bool.and_eq_true, beq_iff_eq, ih, List.cons_prefix_cons]
      constructor
      · rintro ⟨h1, h2⟩
        exact ⟨h1.symm, h2⟩
      · rintro ⟨h1, h2⟩
        exact ⟨h1.symm, h2⟩

theorem includes_iff (s q : Str) : includes s q = true ↔ q <:+: s := by
  induction s with
  | nil =>
    simp only [includes, startsWith_iff]
    constructor
    · exact fun h => h.isInfix
    · intro h
      rw [List.infix_nil] at h
      subst h
      exact List.prefix_rfl
  | cons c s ih =>
    simp only [includes, Bool.or_eq_true, startsWith_iff, ih, List.infix_cons_iff]

theorem lowerChar_not_upper (c d : Char) (hd : d ∈ lowerChar c) :
    ¬ (0x41 ≤ d.toNat ∧ d.toNat ≤ 0x5A) := by
  unfold lowerChar at hd
  simp only at hd
  split_ifs at hd with h1 h2 h3
  · simp only [List.mem_singleton] at hd
    subst hd
    obtain ⟨ha, hb⟩ := h1
    generalize c.toNat = n at ha hb
    interval_cases n <;> decide
  · simp only [List.mem_cons, List.mem_singleton, List.mem_nil_iff, or_false] at hd
    rcases hd with rfl | rfl <;> decide
  · simp only [List.mem_singleton] at hd
    subst hd
    decide
  · simp only [List.mem_singleton] at hd
    subst hd
    exact h1

theorem toLowerCase_not_upper (s : Str) (d : Char) (hd : d ∈ toLowerCase s) :
    ¬ (0x41 ≤ d.toNat ∧ d.toNat ≤ 0x5A) := by
  induction s with
  | nil => simp [toLowerCase] at hd
  | cons c cs ih =>
    simp only [toLowerCase, List.mem_append] at hd
    rcases hd with h | h
    · exact lowerChar_not_upper c d h
    · exact ih h

theorem mem_replaceRunsFrom (p : Char → Bool) (r : Char) (b : Bool) (s : Str) (c : Char)
    (hc : c ∈ replaceRunsFrom p r b s) : c = r ∨ (c ∈ s ∧ p c = false) := by
  induction s generalizing b with
  | nil => simp [replaceRunsFrom] at hc
  | cons x xs ih =>
    unfold replaceRunsFrom at hc
    by_cases hx : p x = true
    · cases b
      · simp only [hx, if_true, Bool.false_eq_true, if_false, List.mem_cons] at hc
        rcases hc with h | h
        · exact Or.inl h
        · rcases ih true h with h' | ⟨h1, h2⟩
          · exact Or.inl h'
          · exact Or.inr ⟨List.mem_cons_of_mem _ h1, h2⟩
      · simp only [hx, if_true] at hc
        rcases ih true hc with h' | ⟨h1, h2⟩
        · exact Or.inl h'
        · exact Or.inr ⟨List.mem_cons_of_mem _ h1, h2⟩
    · simp only [hx, Bool.false_eq_true, if_false, List.mem_cons] at hc
      rcases hc with h | h
      · subst h
        exact Or.inr ⟨List.mem_cons_self _ _, by simpa using hx⟩
      · rcases ih false h with h' | ⟨h1, h2⟩
        · exact Or.inl h'
        · exact Or.inr ⟨List.mem_cons_of_mem _ h1, h2⟩

theorem replaceRunsFrom_chain (p : Char → Bool) (r : Char) (b : Bool) (s : Str) :
    List.Chain' (fun x y => ¬ (p x = true ∧ p y = true)) (replaceRunsFrom p r b s) ∧
      (b = true → ∀ x ∈ (replaceRunsFrom p r b s).head?, p x = false) := by
  induction s generalizing b with
  | nil => simp [replaceRunsFrom]
  | cons x xs ih =>
    unfold replaceRunsFrom
    by_cases hx : p x = true
    · cases b
      · simp only [hx, if_true, Bool.false_eq_true, if_false, List.chain'_cons', false_implies,
          and_true]
        refine ⟨fun y hy hxy => ?_, (ih true).1⟩
        have := (ih true).2 rfl y hy
        rw [this] at hxy
        exact absurd hxy.2 (by simp)
      · rw [if_pos hx, if_pos rfl]
        exact ih true
    · rw [if_neg hx]
      refine ⟨List.chain'_cons'.2 ⟨fun y _ hxy => hx hxy.1, (ih false).1⟩, fun _ y hy => ?_⟩
      simp only [List.head?_cons, Option.mem_def, Option.some.injEq] at hy
      subst hy
      simpa using hx

theorem replaceRuns_no_double (p : Char → Bool) (r : Char) (s : Str) (c : Char)
    (hc : p c = true) : ¬ ([c, c] <:+: replaceRuns p r s) := by
  intro h
  have hch := List.Chain'.infix (replaceRunsFrom_chain p r false s).1 h
  simp [List.chain'_cons', hc] at hch

section SlugAndFilter

variable {N : Type}

theorem isSlugChar_of_word {c : Char} (hw : isWord c = true)
    (hu : ¬ (0x41 ≤ c.toNat ∧ c.toNat ≤ 0x5A)) : isSlugChar c = true := by
  unfold isWord at hw
  unfold isSlugChar
  simp only [Bool.or_eq_true, Bool.and_eq_true, decide_eq_true_eq, beq_iff_eq] at hw ⊢
  omega

theorem isSpace_of_isSlugChar {c : Char} (h : isSlugChar c = true) : isSpace c = false := by
  unfold isSlugChar at h
  unfold isSpace
  simp only [Bool.or_eq_true, Bool.and_eq_true, decide_eq_true_eq, beq_iff_eq] at h
  simp only [Bool.or_eq_false_iff, Bool.and_eq_false_iff, decide_eq_false_iff_not,
    beq_eq_false_iff_ne, ne_eq]
  omega

theorem toSlug_str (P : NumOps N) (s : Str) :
    toSlug P (.str s) =
      replaceRuns isHyphen '-'
        (replaceRuns isSpace '-' (stripOther (trim (toLowerCase s)))) := rfl

theorem toSlug_chars (P : NumOps N) (s : Str) (c : Char) (hc : c ∈ toSlug P (.str s)) :
    isSlugChar c = true := by
  rw [toSlug_str] at hc
  rcases mem_replaceRunsFrom _ _ _ _ _ hc with h | ⟨h1, _⟩
  · subst h
    decide
  · rcases mem_replaceRunsFrom _ _ _ _ _ h1 with h | ⟨h3, h4⟩
    · subst h
      decide
    · have h5 := List.mem_filter.1 h3
      have h6 : c ∈ toLowerCase s := (trim_sub _).subset h5.1
      have hu := toLowerCase_not_upper s c h6
      have h7 := h5.2
      simp only [Bool.or_eq_true, h4, Bool.false_eq_true, or_false] at h7
      rcases h7 with h7 | h7
      · exact isSlugChar_of_word h7 hu
      · unfold isHyphen at h7
        unfold isSlugChar
        simp only [beq_iff_eq] at h7
        simp [h7]

end SlugAndFilter

/-- C8: the slug of the name `Vizzini's Revenge!` is `vizzinis-revenge`. -/
theorem toSlug_vizzini {N : Type} (P : NumOps N) :
    toSlug P (.str "Vizzini's Revenge!") = ("vizzinis-revenge" : Str) := by
  rfl

/-- C9: for every string `s`, `toSlug(s)` is `s` lower-cased, trimmed, stripped of every
character that is not a word character, white space or a hyphen, with each run of white
space and then each run of hyphens replaced by one hyphen; so it consists of lower-case
ASCII letters, digits, underscores and hyphens only, holds no white space and no two
adjacent hyphens. -/
theorem toSlug_shape {N : Type} (P : NumOps N) (s : Str) :
    toSlug P (.str s) =
        replaceRuns isHyphen '-'
          (replaceRuns isSpace '-' (stripOther (trim (toLowerCase s)))) ∧
      (∀ c ∈ toSlug P (.str s), isSlugChar c = true) ∧
      (∀ c ∈ toSlug P (.str s), isSpace c = false) ∧
      ¬ (['-', '-'] <:+: toSlug P (.str s)) :=
  ⟨rfl, toSlug_chars P s, fun c hc => isSpace_of_isSlugChar (toSlug_chars P s c hc),
    replaceRuns_no_double isHyphen '-' _ '-' (by decide)⟩

theorem lowerFrom_eq_nil (f : CaseMap) (hf : ∀ b c a, f b c a ≠ []) (before s : Str) :
    lowerFrom f before s = [] ↔ s = [] := by
  cases s with
  | nil => simp [lowerFrom]
  | cons c cs => simp [lowerFrom, hf]

theorem lowerFrom_context_free (g : Char → Str) (before s : Str) :
    lowerFrom (fun _ c _ => g c) before s = s.flatMap g := by
  induction s generalizing before with
  | nil => rfl
  | cons c cs ih => simp [lowerFrom, ih]

theorem lower_trim_sub_of_context_free (g : Char → Str) (q : Str) :
    toLowerCaseBy (fun _ c _ => g c) (trim q) <:+: toLowerCaseBy (fun _ c _ => g c) q := by
  unfold toLowerCaseBy
  rw [lowerFrom_context_free, lowerFrom_context_free]
  obtain ⟨u, v, h⟩ := trim_sub q
  have key : (trim q).flatMap g <:+: (u ++ trim q ++ v).flatMap g := by
    simp only [List.flatMap_append]
    exact List.infix_append _ _ _
  rw [h] at key
  exact key

theorem trim_decompose (q : Str) :
    ∃ w₁ w₂ : Str, (∀ x ∈ w₁, isSpace x = true) ∧ (∀ x ∈ w₂, isSpace x = true) ∧
      q = w₁ ++ trim q ++ w₂ := by
  refine ⟨q.takeWhile isSpace, ((trimStart q).reverse.takeWhile isSpace).reverse,
    fun x hx => List.mem_takeWhile_imp hx,
    fun x hx => List.mem_takeWhile_imp (List.mem_reverse.1 hx), ?_⟩
  have h1 : q = q.takeWhile isSpace ++ trimStart q :=
    (List.takeWhile_append_dropWhile isSpace q).symm
  have h2 : trimStart q =
      trim q ++ ((trimStart q).reverse.takeWhile isSpace).reverse := by
    have h := List.takeWhile_append_dropWhile isSpace (trimStart q).reverse
    have h' := congrArg List.reverse h
    rw [List.reverse_append, List.reverse_reverse] at h'
    exact h'.symm
  rw [List.append_assoc, ← h2]
  exact h1

theorem lowerFrom_append (f : CaseMap) (before x y : Str) :
    ∃ head, lowerFrom f before (x ++ y) = head ++ lowerFrom f (before ++ x) y := by
  induction x generalizing before with
  | nil => exact ⟨[], by simp⟩
  | cons c cs ih =>
    obtain ⟨head, hh⟩ := ih (before ++ [c])
    refine ⟨f before c (cs ++ y) ++ head, ?_⟩
    show f before c (cs ++ y) ++ lowerFrom f (before ++ [c]) (cs ++ y) = _
    rw [hh, List.append_assoc before [c] cs, List.append_assoc]
    rfl

theorem lowerFrom_blank_ends (f : CaseMap)
    (hctx : ∀ (w₁ w₂ b : Str) (c : Char) (a : Str), (∀ x ∈ w₁, isSpace x = true) →
      (∀ x ∈ w₂, isSpace x = true) → f (w₁ ++ b) c (a ++ w₂) = f b c a)
    (w₁ w₂ : Str) (h₁ : ∀ x ∈ w₁, isSpace x = true) (h₂ : ∀ x ∈ w₂, isSpace x = true)
    (m b : Str) :
    ∃ tail, lowerFrom f (w₁ ++ b) (m ++ w₂) = lowerFrom f b m ++ tail := by
  induction m generalizing b with
  | nil => exact ⟨lowerFrom f (w₁ ++ b) w₂, by simp [lowerFrom]⟩
  | cons c cs ih =>
    obtain ⟨tail, ht⟩ := ih (b ++ [c])
    refine ⟨tail, ?_⟩
    show f (w₁ ++ b) c (cs ++ w₂) ++ lowerFrom f (w₁ ++ b ++ [c]) (cs ++ w₂) =
      f b c cs ++ lowerFrom f (b ++ [c]) cs ++ tail
    rw [hctx w₁ w₂ b c cs h₁ h₂, List.append_assoc w₁ b [c], ht, List.append_assoc]

theorem lower_trim_sub_of_blank_insensitive (f : CaseMap)
    (hctx : ∀ (w₁ w₂ b : Str) (c : Char) (a : Str), (∀ x ∈ w₁, isSpace x = true) →
      (∀ x ∈ w₂, isSpace x = true) → f (w₁ ++ b) c (a ++ w₂) = f b c a)
    (q : Str) : toLowerCaseBy f (trim q) <:+: toLowerCaseBy f q := by
  obtain ⟨w₁, w₂, h₁, h₂, hq⟩ := trim_decompose q
  obtain ⟨head, hh⟩ := lowerFrom_append f [] w₁ (trim q ++ w₂)
  obtain ⟨tail, ht⟩ := lowerFrom_blank_ends f hctx w₁ w₂ h₁ h₂ (trim q) []
  have key : toLowerCaseBy f (w₁ ++ trim q ++ w₂) =
      head ++ toLowerCaseBy f (trim q) ++ tail := by
    unfold toLowerCaseBy
    rw [List.append_assoc, hh]
    simp only [List.nil_append, List.append_nil] at ht ⊢
    rw [ht, List.append_assoc]
  rw [← hq] at key
  exact ⟨head, tail, key.symm⟩

/-- C2: a row of the list is kept by the filter as soon as, for one of the search keys,
the lower-cased query is a substring of the lower-cased string form of that field of the
row (`null` and `undefined` read as the empty string). The lower-case mapping is any
mapping under which the lower-cased trimmed query occurs in the lower-cased query, which
`lower_trim_sub_of_blank_insensitive` derives for every query from a mapping whose forms
do not change when white space is added at the two ends of the string; the mapping of
`toLowerCase` is such a mapping, its one context rule (the capital sigma) looking for a
cased letter, which no white space character is. -/
theorem filtered_keeps_match {N : Type} (P : NumOps N) (f : CaseMap) (searchKeys : List Str)
    (rows : List (JsObj N)) (r : JsObj N) (q : Str) (hr : r ∈ rows)
    (hlow : toLowerCaseBy f (trim q) <:+: toLowerCaseBy f q)
    (hk : ∃ k ∈ searchKeys, toLowerCaseBy f q <:+: searchText P f r k) :
    r ∈ filtered P f searchKeys rows q := by
  obtain ⟨k, hk1, hk2⟩ := hk
  unfold filtered
  simp only
  split_ifs with hq
  · exact hr
  · rw [List.mem_filter]
    refine ⟨hr, ?_⟩
    rw [List.any_eq_true]
    refine ⟨k, hk1, ?_⟩
    rw [includes_iff]
    exact hlow.trans hk2

/-- Witness of C2: the query `МЕДИ` keeps the record whose Russian name is `Комедия`, and
so does the query `KOM` between two blanks, by the Uzbek name. -/
theorem filtered_keeps_match_witness :
    komediyaRu ∈ [komediyaRu] ∧
      toLowerCaseBy sampleFold (trim ("МЕДИ" : Str)) <:+:
        toLowerCaseBy sampleFold ("МЕДИ" : Str) ∧
      (∃ k ∈ (category.resource decNum).searchKeys,
        toLowerCaseBy sampleFold ("МЕДИ" : Str) <:+: searchText decNum sampleFold komediyaRu k) ∧
      komediyaRu ∈
        filtered decNum sampleFold (category.resource decNum).searchKeys [komediyaRu] "МЕДИ" ∧
      filtered decNum sampleFold (category.resource decNum).searchKeys [komediyaRu] " KOM " =
        [komediyaRu] :=
  have hr : komediyaRu ∈ [komediyaRu] := List.mem_singleton.2 rfl
  have hlow : toLowerCaseBy sampleFold (trim ("МЕДИ" : Str)) <:+:
      toLowerCaseBy sampleFold ("МЕДИ" : Str) := (includes_iff _ _).1 (by decide)
  have hk : ∃ k ∈ (category.resource decNum).searchKeys,
      toLowerCaseBy sampleFold ("МЕДИ" : Str) <:+: searchText decNum sampleFold komediyaRu k :=
    ⟨"name_ru", by decide, (includes_iff _ _).1 (by decide)⟩
  ⟨hr, hlow, hk, filtered_keeps_match decNum sampleFold _ _ _ _ hr hlow hk, by decide⟩

/-- C3, as stated, fails: the query of one blank is not empty and occurs in no search
field of the record `Komediya`, and the query `kom` followed by a blank occurs in none
either, yet the filter keeps the record for both. -/
theorem filtered_nonempty_query_counterexample :
    ((" " : Str) ≠ [] ∧
      (∀ r ∈ [komediya], ∀ k ∈ (category.resource decNum).searchKeys,
        ¬ (toLowerCaseBy sampleFold (" " : Str) <:+: searchText decNum sampleFold r k)) ∧
      filtered decNum sampleFold (category.resource decNum).searchKeys [komediya] " " ≠ []) ∧
    (("kom " : Str) ≠ [] ∧
      (∀ r ∈ [komediya], ∀ k ∈ (category.resource decNum).searchKeys,
        ¬ (toLowerCaseBy sampleFold ("kom " : Str) <:+: searchText decNum sampleFold r k)) ∧
      filtered decNum sampleFold (category.resource decNum).searchKeys [komediya] "kom " ≠
        []) := by
  refine ⟨⟨by decide, ?_, by decide⟩, ⟨by decide, ?_, by decide⟩⟩
  · intro r hr k hk h
    rw [← includes_iff] at h
    revert r k
    decide
  · intro r hr k hk h
    rw [← includes_iff] at h
    revert r k
    decide

/-- C3, amended: when the trimmed query is not empty and, for no row and no search key,
the lower-cased string form of the field contains the lower-cased trimmed query, the
filtered list is empty. The lower-case mapping is any mapping that gives no code point an
empty lower-case form. -/
theorem filtered_no_match {N : Type} (P : NumOps N) (f : CaseMap) (searchKeys : List Str)
    (rows : List (JsObj N)) (q : Str) (hf : ∀ b c a, f b c a ≠ []) (hq : trim q ≠ [])
    (h : ∀ r ∈ rows, ∀ k ∈ searchKeys,
      ¬ (toLowerCaseBy f (trim q) <:+: searchText P f r k)) :
    filtered P f searchKeys rows q = [] := by
  unfold filtered
  simp only
  have hne : (toLowerCaseBy f (trim q)).isEmpty = false := by
    cases hl : toLowerCaseBy f (trim q) with
    | nil => exact absurd ((lowerFrom_eq_nil f hf [] _).1 hl) hq
    | cons a l => rfl
  rw [hne]
  simp only [Bool.false_eq_true, if_false]
  rw [List.filter_eq_nil_iff]
  intro r hr hany
  rw [List.any_eq_true] at hany
  obtain ⟨k, hk, hin⟩ := hany
  exact h r hr k hk ((includes_iff _ _).1 hin)

/-- Witness of C3 amended: the queries `drama` and `ДРАМА` empty the list holding the
record of Russian name `Комедия`. -/
theorem filtered_no_match_witness :
    (∀ b c a, sampleFold b c a ≠ []) ∧ trim ("ДРАМА" : Str) ≠ [] ∧
      (∀ r ∈ [komediyaRu], ∀ k ∈ (category.resource decNum).searchKeys,
        ¬ (toLowerCaseBy sampleFold (trim ("ДРАМА" : Str)) <:+:
          searchText decNum sampleFold r k)) ∧
      filtered decNum sampleFold (category.resource decNum).searchKeys [komediyaRu] "ДРАМА" =
        [] ∧
      filtered decNum sampleFold (category.resource decNum).searchKeys [komediyaRu] "drama" =
        [] :=
  have hf : ∀ b c a, sampleFold b c a ≠ [] := by
    intro b c a
    unfold sampleFold
    split_ifs
    · exact List.cons_ne_nil _ _
    · exact lowerChar_ne_nil c
  have hq : trim ("ДРАМА" : Str) ≠ [] := by decide
  have h : ∀ r ∈ [komediyaRu], ∀ k ∈ (category.resource decNum).searchKeys,
      ¬ (toLowerCaseBy sampleFold (trim ("ДРАМА" : Str)) <:+:
        searchText decNum sampleFold r k) := by
    intro r hr k hk hin
    rw [← includes_iff] at hin
    revert r k
    decide
  ⟨hf, hq, h, filtered_no_match decNum sampleFold _ _ _ hf hq h, by decide⟩

/-- C4: with the empty query the filter returns the fetched list itself, the same rows in
the same order. -/
theorem filtered_empty_query {N : Type} (P : NumOps N) (f : CaseMap) (searchKeys : List Str)
    (rows : List (JsObj N)) : filtered P f searchKeys rows "" = rows := by
  rfl


section Payloads

variable {N : Type}

theorem get_cons (k' : Str) (v : JsVal N) (rest : JsObj N) (k : Str) :
    get ((k', v) :: rest) k = if k' = k then v else get rest k := rfl

theorem get_nil (k : Str) : get ([] : JsObj N) k = .undefined := rfl

theorem asString_asString (P : NumOps N) (v : JsVal N) :
    asString P (asString P v) = asString P v := by
  simp only [asString, nullish, jsString, trim_idem]

theorem asNumber_isNum (P : NumOps N) (v : JsVal N) : ∃ n, asNumber P v = .num n := by
  unfold asNumber
  split <;> exact ⟨_, rfl⟩

theorem asNumber_asNumber (P : NumOps N) (v : JsVal N) :
    asNumber P (asNumber P v) = asNumber P v := by
  obtain ⟨n, hn⟩ := asNumber_isNum P v
  rw [hn]
  rfl

theorem asBool_asBool (P : NumOps N) (v : JsVal N) : asBool P (asBool P v) = asBool P v := rfl

theorem nullish_asString (P : NumOps N) (v d : JsVal N) :
    nullish (asString P v) d = asString P v := rfl

theorem nullish_asNumber (P : NumOps N) (v d : JsVal N) :
    nullish (asNumber P v) d = asNumber P v := by
  obtain ⟨n, hn⟩ := asNumber_isNum P v
  rw [hn]
  rfl

theorem actor_toPayload_idem (P : NumOps N) (f : JsObj N) :
    actor.toPayload P (actor.toPayload P f) = actor.toPayload P f := by
  simp +decide only [actor.toPayload, get_cons, if_true, if_false, asString_asString,
    asNumber_asNumber, asBool_asBool]

theorem actor_roundtrip (P : NumOps N) (f : JsObj N) :
    actor.toPayload P (actor.makeFromRow (actor.toPayload P f)) = actor.toPayload P f := by
  simp +decide only [actor.toPayload, actor.makeFromRow, get_cons, if_true, if_false,
    asString_asString, asNumber_asNumber, asBool_asBool, nullish_asString, nullish_asNumber]

theorem category_toPayload_idem (P : NumOps N) (f : JsObj N) :
    category.toPayload P (category.toPayload P f) = category.toPayload P f := by
  simp +decide only [category.toPayload, get_cons, if_true, if_false, asString_asString,
    asNumber_asNumber, asBool_asBool]

theorem category_roundtrip (P : NumOps N) (f : JsObj N) :
    category.toPayload P (category.makeFromRow P (category.toPayload P f)) = category.toPayload P f := by
  simp +decide only [category.toPayload, category.makeFromRow, get_cons, if_true, if_false,
    asString_asString, asNumber_asNumber, asBool_asBool, nullish_asString, nullish_asNumber]

theorem director_toPayload_idem (P : NumOps N) (f : JsObj N) :
    director.toPayload P (director.toPayload P f) = director.toPayload P f := by
  simp +decide only [director.toPayload, get_cons, if_true, if_false, asString_asString,
    asNumber_asNumber, asBool_asBool]

theorem director_roundtrip (P : NumOps N) (f : JsObj N) :
    director.toPayload P (director.makeFromRow (director.toPayload P f)) = director.toPayload P f := by
  simp +decide only [director.toPayload, director.makeFromRow, get_cons, if_true, if_false,
    asString_asString, asNumber_asNumber, asBool_asBool, nullish_asString, nullish_asNumber]

theorem genre_toPayload_idem (P : NumOps N) (f : JsObj N) :
    genre.toPayload P (genre.toPayload P f) = genre.toPayload P f := by
  simp +decide only [genre.toPayload, get_cons, if_true, if_false, asString_asString,
    asNumber_asNumber, asBool_asBool]

theorem genre_roundtrip (P : NumOps N) (f : JsObj N) :
    genre.toPayload P (genre.makeFromRow P (genre.toPayload P f)) = genre.toPayload P f := by
  simp +decide only [genre.toPayload, genre.makeFromRow, get_cons, if_true, if_false,
    asString_asString, asNumber_asNumber, asBool_asBool, nullish_asString, nullish_asNumber]

theorem movie_toPayload_idem (P : NumOps N) (f : JsObj N) :
    movie.toPayload P (movie.toPayload P f) = movie.toPayload P f := by
  simp +decide only [movie.toPayload, get_cons, if_true, if_false, asString_asString,
    asNumber_asNumber, asBool_asBool]

theorem movie_roundtrip (P : NumOps N) (f : JsObj N) :
    movie.toPayload P (movie.makeFromRow P (movie.toPayload P f)) = movie.toPayload P f := by
  simp +decide only [movie.toPayload, movie.makeFromRow, get_cons, if_true, if_false,
    asString_asString, asNumber_asNumber, asBool_asBool, nullish_asString, nullish_asNumber]

theorem movie_actor_toPayload_idem (P : NumOps N) (f : JsObj N) :
    movie_actor.toPayload P (movie_actor.toPayload P f) = movie_actor.toPayload P f := by
  simp +decide only [movie_actor.toPayload, get_cons, if_true, if_false, asString_asString,
    asNumber_asNumber, asBool_asBool]

theorem movie_actor_roundtrip (P : NumOps N) (f : JsObj N) :
    movie_actor.toPayload P (movie_actor.makeFromRow (movie_actor.toPayload P f)) = movie_actor.toPayload P f := by
  simp +decide only [movie_actor.toPayload, movie_actor.makeFromRow, get_cons, if_true, if_false,
    asString_asString, asNumber_asNumber, asBool_asBool, nullish_asString, nullish_asNumber]

theorem movie_category_toPayload_idem (P : NumOps N) (f : JsObj N) :
    movie_category.toPayload P (movie_category.toPayload P f) = movie_category.toPayload P f := by
  simp +decide only [movie_category.toPayload, get_cons, if_true, if_false, asString_asString,
    asNumber_asNumber, asBool_asBool]

theorem movie_category_roundtrip (P : NumOps N) (f : JsObj N) :
    movie_category.toPayload P (movie_category.makeFromRow (movie_category.toPayload P f)) = movie_category.toPayload P f := by
  simp +decide only [movie_category.toPayload, movie_category.makeFromRow, get_cons, if_true, if_false,
    asString_asString, asNumber_asNumber, asBool_asBool, nullish_asString, nullish_asNumber]

theorem movie_director_toPayload_idem (P : NumOps N) (f : JsObj N) :
    movie_director.toPayload P (movie_director.toPayload P f) = movie_director.toPayload P f := by
  simp +decide only [movie_director.toPayload, get_cons, if_true, if_false, asString_asString,
    asNumber_asNumber, asBool_asBool]

theorem movie_director_roundtrip (P : NumOps N) (f : JsObj N) :
    movie_director.toPayload P (movie_director.makeFromRow (movie_director.toPayload P f)) = movie_director.toPayload P f := by
  simp +decide only [movie_director.toPayload, movie_director.makeFromRow, get_cons, if_true, if_false,
    asString_asString, asNumber_asNumber, asBool_asBool, nullish_asString, nullish_asNumber]

theorem movie_genre_toPayload_idem (P : NumOps N) (f : JsObj N) :
    movie_genre.toPayload P (movie_genre.toPayload P f) = movie_genre.toPayload P f := by
  simp +decide only [movie_genre.toPayload, get_cons, if_true, if_false, asString_asString,
    asNumber_asNumber, asBool_asBool]

theorem movie_genre_roundtrip (P : NumOps N) (f : JsObj N) :
    movie_genre.toPayload P (movie_genre.makeFromRow (movie_genre.toPayload P f)) = movie_genre.toPayload P f := by
  simp +decide only [movie_genre.toPayload, movie_genre.makeFromRow, get_cons, if_true, if_false,
    asString_asString, asNumber_asNumber, asBool_asBool, nullish_asString, nullish_asNumber]

theorem mem_createResources (P : NumOps N) (R : Resource N) (hR : R ∈ createResources P) :
    R = actor.resource P ∨ R = category.resource P ∨ R = director.resource P ∨
      R = genre.resource P ∨ R = movie.resource P ∨ R = movie_actor.resource P ∨
      R = movie_category.resource P ∨ R = movie_director.resource P ∨
      R = movie_genre.resource P := by
  simpa [createResources] using hR

theorem nullish_of_absent (v d : JsVal N) (h : v = .undefined ∨ v = .null) :
    nullish v d = d := by
  rcases h with h | h <;> subst h <;> rfl

theorem asBool_of_absent (P : NumOps N) (v : JsVal N) (h : v = .undefined ∨ v = .null) :
    asBool P v = .bool false := by
  rcases h with h | h <;> subst h <;> rfl

end Payloads

/-- C5: for each of the nine descriptors and every form state `f`,
`toPayload(toPayload(f)) = toPayload(f)`: trimming, number coercion and boolean coercion
applied twice give the payload they give once. -/
theorem toPayload_idempotent {N : Type} (P : NumOps N) (R : Resource N)
    (hR : R ∈ createResources P) (f : JsObj N) :
    R.toPayload (R.toPayload f) = R.toPayload f := by
  rcases mem_createResources P R hR with h | h | h | h | h | h | h | h | h <;> subst h
  · exact actor_toPayload_idem P f
  · exact category_toPayload_idem P f
  · exact director_toPayload_idem P f
  · exact genre_toPayload_idem P f
  · exact movie_toPayload_idem P f
  · exact movie_actor_toPayload_idem P f
  · exact movie_category_toPayload_idem P f
  · exact movie_director_toPayload_idem P f
  · exact movie_genre_toPayload_idem P f

/-- Witness of C5: the category payload of a typed draft is a fixed point. -/
theorem toPayload_idempotent_witness :
    category.resource decNum ∈ createResources decNum ∧
      (category.resource decNum).toPayload ((category.resource decNum).toPayload draftForm) =
        (category.resource decNum).toPayload draftForm :=
  have hR : category.resource decNum ∈ createResources decNum :=
    List.mem_cons_of_mem _ (List.mem_cons_self _ _)
  ⟨hR, toPayload_idempotent decNum _ hR draftForm⟩

/-- C6, as stated, fails: for the row without any field, the category payload of
`makeFromRow` differs from the payload of `makeEmpty` (in `is_active`). -/
theorem empty_row_payload_counterexample :
    (∀ k, get ([] : JsObj (Option Int)) k = .undefined ∨
        get ([] : JsObj (Option Int)) k = .null) ∧
      category.toPayload decNum (category.makeFromRow decNum []) ≠
        category.toPayload decNum (category.makeEmpty decNum) :=
  ⟨fun _ => Or.inl rfl, by decide⟩

/-- C6, amended: for a row `r` whose fields are all absent, the payload of
`makeFromRow(r)` equals the payload of `makeEmpty()` field for field for actor, director
and the four join tables; for category, genre and movie it is the payload of
`makeEmpty()` with `is_active` set to `false`, where the empty form gives `true`. -/
theorem empty_row_payload {N : Type} (P : NumOps N) (r : JsObj N)
    (hr : ∀ k, get r k = .undefined ∨ get r k = .null) :
    (actor.toPayload P (actor.makeFromRow r) = actor.toPayload P actor.makeEmpty ∧
      director.toPayload P (director.makeFromRow r) = director.toPayload P director.makeEmpty ∧
      movie_actor.toPayload P (movie_actor.makeFromRow r) =
        movie_actor.toPayload P movie_actor.makeEmpty ∧
      movie_category.toPayload P (movie_category.makeFromRow r) =
        movie_category.toPayload P movie_category.makeEmpty ∧
      movie_director.toPayload P (movie_director.makeFromRow r) =
        movie_director.toPayload P movie_director.makeEmpty ∧
      movie_genre.toPayload P (movie_genre.makeFromRow r) =
        movie_genre.toPayload P movie_genre.makeEmpty) ∧
    (category.toPayload P (category.makeFromRow P r) =
        set (category.toPayload P (category.makeEmpty P)) "is_active" (.bool false) ∧
      get (category.toPayload P (category.makeEmpty P)) "is_active" = .bool true) ∧
    (genre.toPayload P (genre.makeFromRow P r) =
        set (genre.toPayload P genre.makeEmpty) "is_active" (.bool false) ∧
      get (genre.toPayload P genre.makeEmpty) "is_active" = .bool true) ∧
    (movie.toPayload P (movie.makeFromRow P r) =
        set (movie.toPayload P (movie.makeEmpty P)) "is_active" (.bool false) ∧
      get (movie.toPayload P (movie.makeEmpty P)) "is_active" = .bool true) := by
  have hn : ∀ k d, nullish (get r k) d = d := fun k d => nullish_of_absent _ d (hr k)
  have hb : ∀ k, asBool P (get r k) = .bool false := fun k => asBool_of_absent P _ (hr k)
  refine ⟨⟨?_, ?_, ?_, ?_, ?_, ?_⟩, ⟨?_, rfl⟩, ⟨?_, rfl⟩, ⟨?_, rfl⟩⟩
  · simp +decide only [actor.toPayload, actor.makeFromRow, actor.makeEmpty, get_cons, if_true,
      if_false, hn]
  · simp +decide only [director.toPayload, director.makeFromRow, director.makeEmpty, get_cons,
      if_true, if_false, hn]
  · simp +decide only [movie_actor.toPayload, movie_actor.makeFromRow, movie_actor.makeEmpty,
      get_cons, if_true, if_false, hn]
  · simp +decide only [movie_category.toPayload, movie_category.makeFromRow,
      movie_category.makeEmpty, get_cons, if_true, if_false, hn]
  · simp +decide only [movie_director.toPayload, movie_director.makeFromRow,
      movie_director.makeEmpty, get_cons, if_true, if_false, hn]
  · simp +decide only [movie_genre.toPayload, movie_genre.makeFromRow, movie_genre.makeEmpty,
      get_cons, if_true, if_false, hn]
  · simp +decide only [category.toPayload, category.makeFromRow, category.makeEmpty, get_cons,
      if_true, if_false, hn, hb, set]
    rfl
  · simp +decide only [genre.toPayload, genre.makeFromRow, genre.makeEmpty, get_cons,
      if_true, if_false, hn, hb, set]
    rfl
  · simp +decide only [movie.toPayload, movie.makeFromRow, movie.makeEmpty, get_cons,
      if_true, if_false, hn, hb, set]
    rfl

/-- Witness of C6 amended: a record whose fields are all `null`. -/
theorem empty_row_payload_witness :
    (∀ k, get nullRow k = .undefined ∨ get nullRow k = .null) ∧
      actor.toPayload decNum (actor.makeFromRow nullRow) =
        actor.toPayload decNum actor.makeEmpty ∧
      category.toPayload decNum (category.makeFromRow decNum nullRow) =
        set (category.toPayload decNum (category.makeEmpty decNum)) "is_active" (.bool false) :=
  have hr : ∀ k, get nullRow k = .undefined ∨ get nullRow k = .null := by
    intro k
    simp only [nullRow, get_cons, get_nil]
    split_ifs <;> simp
  ⟨hr, (empty_row_payload decNum nullRow hr).1.1, (empty_row_payload decNum nullRow hr).2.1.1⟩

/-- C7: for each of the nine descriptors and every form state `f`, with
`p = toPayload(f)` read back as a stored row, `toPayload(makeFromRow(p)) = p`. -/
theorem toPayload_makeFromRow_roundtrip {N : Type} (P : NumOps N) (R : Resource N)
    (hR : R ∈ createResources P) (f : JsObj N) :
    R.toPayload (R.makeFromRow (R.toPayload f)) = R.toPayload f := by
  rcases mem_createResources P R hR with h | h | h | h | h | h | h | h | h <;> subst h
  · exact actor_roundtrip P f
  · exact category_roundtrip P f
  · exact director_roundtrip P f
  · exact genre_roundtrip P f
  · exact movie_roundtrip P f
  · exact movie_actor_roundtrip P f
  · exact movie_category_roundtrip P f
  · exact movie_director_roundtrip P f
  · exact movie_genre_roundtrip P f

/-- Witness of C7: the category payload of a typed draft comes back unchanged. -/
theorem toPayload_makeFromRow_roundtrip_witness :
    category.resource decNum ∈ createResources decNum ∧
      (category.resource decNum).toPayload
          ((category.resource decNum).makeFromRow
            ((category.resource decNum).toPayload draftForm)) =
        (category.resource decNum).toPayload draftForm :=
  have hR : category.resource decNum ∈ createResources decNum :=
    List.mem_cons_of_mem _ (List.mem_cons_self _ _)
  ⟨hR, toPayload_makeFromRow_roundtrip decNum _ hR draftForm⟩

section Submit

variable {N : Type}

theorem isMissing_iff (P : NumOps N) (v : JsVal N) :
    isMissing P v = true ↔ v = .undefined ∨ v = .null ∨ trim (jsString P v) = [] := by
  cases v <;> simp [isMissing, List.isEmpty_iff]

theorem update_isSome_of_mem (P : NumOps N) (R : Resource N) (hR : R ∈ createResources P) :
    ∃ u, R.paths.update = some u := by
  rcases mem_createResources P R hR with h | h | h | h | h | h | h | h | h <;> subst h <;>
    exact ⟨_, rfl⟩

theorem submit_of_missing (P : NumOps N) (R : Resource N) (server : Server N) (st : State N)
    (h : missingFields P R (R.toPayload st.form) ≠ []) :
    submit P R server st =
      { state := showToast st (Toast.mk "error" "Validation error"
          (("Required: " : Str) ++ join ", " (missingFields P R (R.toPayload st.form))))
        requests := []
        invalidated := [] } := by
  have hlen : (missingFields P R (R.toPayload st.form)).length ≠ 0 := by
    intro h0
    exact h (List.length_eq_zero.1 h0)
  unfold submit
  simp only [hlen, ne_eq, not_false_eq_true, if_true]

theorem submit_requests (P : NumOps N) (R : Resource N) (server : Server N) (st : State N)
    (h : missingFields P R (R.toPayload st.form) = []) :
    (submit P R server st).requests =
      (saveMutation R server (R.toPayload st.form) st.mode (currentId st.current)).2 := by
  unfold submit
  simp only [h, List.length_nil, ne_eq, not_true_eq_false, if_false]
  split
  · rename_i heq
    rw [heq]
  · rename_i heq
    rw [heq]

theorem saveMutation_requests (R : Resource N) (server : Server N) (payload : JsObj N)
    (itemMode : Mode) (id : JsVal N) (u : JsVal N → Str) (hu : R.paths.update = some u) :
    ∃ rq, (saveMutation R server payload itemMode id).2 = [rq] ∧
      (rq.method = .POST ∨ rq.method = .PATCH) ∧ rq.body = some payload := by
  cases itemMode with
  | create => exact ⟨_, rfl, Or.inl rfl, rfl⟩
  | edit =>
    simp only [saveMutation, hu]
    exact ⟨_, rfl, Or.inr rfl, rfl⟩

theorem submit_requests_of_complete (P : NumOps N) (R : Resource N) (server : Server N)
    (st : State N) (u : JsVal N → Str) (hu : R.paths.update = some u)
    (h : missingFields P R (R.toPayload st.form) = []) :
    ∃ rq, (submit P R server st).requests = [rq] ∧
      (rq.method = .POST ∨ rq.method = .PATCH) ∧ rq.body = some (R.toPayload st.form) := by
  rw [submit_requests P R server st h]
  exact saveMutation_requests R server _ _ _ u hu

end Submit

/-- C1: for each of the nine descriptors and every form state, `submit` computes the
payload `p = toPayload(form)` and the list `missing` of the required fields, in their
order, whose value in `p` is `undefined`, `null` or blank once trimmed; it issues a save
request (one `POST` or `PATCH` carrying `p`) exactly when `missing` is empty, and
otherwise issues no request and shows the error notification `Validation error` with the
message `Required: ` followed by the names of `missing` joined by a comma and a blank. -/
theorem submit_required_fields {N : Type} (P : NumOps N) (R : Resource N)
    (hR : R ∈ createResources P) (server : Server N) (st : State N) :
    (∀ k, k ∈ missingFields P R (R.toPayload st.form) ↔
        k ∈ R.requiredFields ∧
          (get (R.toPayload st.form) k = .undefined ∨ get (R.toPayload st.form) k = .null ∨
            trim (jsString P (get (R.toPayload st.form) k)) = [])) ∧
      (missingFields P R (R.toPayload st.form)).Sublist R.requiredFields ∧
      ((submit P R server st).requests ≠ [] ↔
        missingFields P R (R.toPayload st.form) = []) ∧
      (missingFields P R (R.toPayload st.form) = [] →
        ∃ rq, (submit P R server st).requests = [rq] ∧
          (rq.method = .POST ∨ rq.method = .PATCH) ∧
          rq.body = some (R.toPayload st.form)) ∧
      (missingFields P R (R.toPayload st.form) ≠ [] →
        (submit P R server st).requests = [] ∧
          (submit P R server st).state.toast =
            some (Toast.mk "error" "Validation error"
              (("Required: " : Str) ++
                join ", " (missingFields P R (R.toPayload st.form))))) := by
  obtain ⟨u, hu⟩ := update_isSome_of_mem P R hR
  refine ⟨fun k => ?_, List.filter_sublist _, ?_, ?_, ?_⟩
  · unfold missingFields
    rw [List.mem_filter, isMissing_iff]
  · constructor
    · intro hne
      by_contra hm
      rw [submit_of_missing P R server st hm] at hne
      exact hne rfl
    · intro hm
      obtain ⟨rq, hrq, _⟩ := submit_requests_of_complete P R server st u hu hm
      rw [hrq]
      exact List.cons_ne_nil _ _
  · exact submit_requests_of_complete P R server st u hu
  · intro hm
    rw [submit_of_missing P R server st hm]
    exact ⟨rfl, rfl⟩

/-- Witness of C1: submitting the category form with a blank name and an empty slug sends
nothing and reports both fields. -/
theorem submit_required_fields_witness :
    category.resource decNum ∈ createResources decNum ∧
      missingFields decNum (category.resource decNum)
          ((category.resource decNum).toPayload (creating blankForm).form) =
        ["name_uz", "slug"] ∧
      (submit decNum (category.resource decNum) acceptAll (creating blankForm)).requests = [] ∧
      (submit decNum (category.resource decNum) acceptAll (creating blankForm)).state.toast =
        some (Toast.mk "error" "Validation error" "Required: name_uz, slug") :=
  have hR : category.resource decNum ∈ createResources decNum :=
    List.mem_cons_of_mem _ (List.mem_cons_self _ _)
  have hm : missingFields decNum (category.resource decNum)
      ((category.resource decNum).toPayload (creating blankForm).form) = ["name_uz", "slug"] := by
    decide
  have hne : missingFields decNum (category.resource decNum)
      ((category.resource decNum).toPayload (creating blankForm).form) ≠ [] := by
    rw [hm]
    exact List.cons_ne_nil _ _
  have h := (submit_required_fields decNum _ hR acceptAll (creating blankForm)).2.2.2.2 hne
  ⟨hR, hm, h.1, by rw [h.2, hm]; rfl⟩

section SlugEdits

variable {N : Type}

theorem get_set_self (o : JsObj N) (k : Str) (v : JsVal N) : get (set o k v) k = v := by
  induction o with
  | nil => simp [set, get]
  | cons kv rest ih =>
    obtain ⟨k', v'⟩ := kv
    unfold set
    by_cases h : k' = k
    · simp [h, get]
    · simp [h, get, ih]

theorem get_set_ne (o : JsObj N) (k k' : Str) (v : JsVal N) (hne : k ≠ k') :
    get (set o k v) k' = get o k' := by
  induction o with
  | nil => simp [set, get, hne]
  | cons kv rest ih =>
    obtain ⟨k₀, v₀⟩ := kv
    unfold set
    by_cases h : k₀ = k
    · subst h
      simp [get, hne]
    · simp only [h, if_false, get, ih]

theorem editSlug_suspended (P : NumOps N) (p : JsObj N) (v : Str) :
    Suspended P (.str (toSlug P (.str v))) (editSlug P p v) := by
  unfold Suspended editSlug
  rw [get_set_self, get_set_ne _ _ _ _ (by decide), get_set_self]
  exact ⟨rfl, rfl⟩

theorem editName_suspended (P : NumOps N) (x : JsVal N) (q : JsObj N) (v : Str)
    (h : Suspended P x q) : Suspended P x (editName P q v) := by
  unfold editName
  simp only [h.1, Bool.false_eq_true, if_false]
  unfold Suspended
  rw [get_set_ne _ _ _ _ (by decide), get_set_ne _ _ _ _ (by decide)]
  exact h

theorem set_suspended (P : NumOps N) (x : JsVal N) (q : JsObj N) (k : Str) (v : JsVal N)
    (h : Suspended P x q) (h1 : k ≠ "autoSlug") (h2 : k ≠ "slug") :
    Suspended P x (set q k v) := by
  unfold Suspended
  rw [get_set_ne _ _ _ _ h1, get_set_ne _ _ _ _ h2]
  exact h

theorem category_applyEdit_suspended (P : NumOps N) (x : JsVal N) (q : JsObj N)
    (e : CategoryEdit) (he : e.isSlug = false ∧ e.isReenable = false)
    (h : Suspended P x q) : Suspended P x (category.applyEdit P q e) := by
  cases e with
  | name_uz v => exact editName_suspended P x q v h
  | slug v => exact absurd he.1 (Bool.noConfusion)
  | name_ru v => exact set_suspended P x q _ _ h (by decide) (by decide)
  | name_en v => exact set_suspended P x q _ _ h (by decide) (by decide)
  | order_number v => exact set_suspended P x q _ _ h (by decide) (by decide)
  | is_active v => exact set_suspended P x q _ _ h (by decide) (by decide)
  | reenableAutoSlug => exact absurd he.2 (by decide)

theorem genre_applyEdit_suspended (P : NumOps N) (x : JsVal N) (q : JsObj N)
    (e : GenreEdit) (he : e.isSlug = false ∧ e.isReenable = false)
    (h : Suspended P x q) : Suspended P x (genre.applyEdit P q e) := by
  cases e with
  | name_uz v => exact editName_suspended P x q v h
  | slug v => exact absurd he.1 (Bool.noConfusion)
  | name_ru v => exact set_suspended P x q _ _ h (by decide) (by decide)
  | name_en v => exact set_suspended P x q _ _ h (by decide) (by decide)
  | icon v => exact set_suspended P x q _ _ h (by decide) (by decide)
  | is_active v => exact set_suspended P x q _ _ h (by decide) (by decide)
  | reenableAutoSlug => exact absurd he.2 (by decide)

theorem category_applyEdits_suspended (P : NumOps N) (x : JsVal N) (es : List CategoryEdit)
    (q : JsObj N) (hes : ∀ e ∈ es, e.isSlug = false ∧ e.isReenable = false)
    (h : Suspended P x q) : Suspended P x (category.applyEdits P q es) := by
  induction es generalizing q with
  | nil => exact h
  | cons e es ih =>
    exact ih _ (fun e' he' => hes e' (List.mem_cons_of_mem _ he'))
      (category_applyEdit_suspended P x q e (hes e (List.mem_cons_self _ _)) h)

theorem genre_applyEdits_suspended (P : NumOps N) (x : JsVal N) (es : List GenreEdit)
    (q : JsObj N) (hes : ∀ e ∈ es, e.isSlug = false ∧ e.isReenable = false)
    (h : Suspended P x q) : Suspended P x (genre.applyEdits P q es) := by
  induction es generalizing q with
  | nil => exact h
  | cons e es ih =>
    exact ih _ (fun e' he' => hes e' (List.mem_cons_of_mem _ he'))
      (genre_applyEdit_suspended P x q e (hes e (List.mem_cons_self _ _)) h)

theorem reenable_autoOn (P : NumOps N) (p : JsObj N) : AutoOn P (reenableAutoSlug P p) := by
  unfold AutoOn reenableAutoSlug
  rw [get_set_ne _ _ _ _ (by decide), get_set_self]
  rfl

theorem reenable_slug (P : NumOps N) (p : JsObj N) :
    get (reenableAutoSlug P p) "slug" =
      .str (toSlug P (get (reenableAutoSlug P p) "name_uz")) := by
  unfold reenableAutoSlug
  rw [get_set_self, get_set_ne _ _ _ _ (by decide), get_set_ne _ _ _ _ (by decide)]

theorem editName_autoOn (P : NumOps N) (q : JsObj N) (v : Str) (h : AutoOn P q) :
    AutoOn P (editName P q v) ∧ get (editName P q v) "slug" = .str (toSlug P (.str v)) := by
  unfold AutoOn at h
  unfold editName
  simp only [h, if_true]
  unfold AutoOn
  rw [get_set_ne _ _ _ _ (by decide), get_set_ne _ _ _ _ (by decide), get_set_self]
  exact ⟨h, rfl⟩

theorem set_autoOn (P : NumOps N) (q : JsObj N) (k : Str) (v : JsVal N) (h : AutoOn P q)
    (h1 : k ≠ "autoSlug") : AutoOn P (set q k v) := by
  unfold AutoOn
  rw [get_set_ne _ _ _ _ h1]
  exact h

theorem category_applyEdit_autoOn (P : NumOps N) (q : JsObj N) (e : CategoryEdit)
    (he : e.isSlug = false) (h : AutoOn P q) : AutoOn P (category.applyEdit P q e) := by
  cases e with
  | name_uz v => exact (editName_autoOn P q v h).1
  | slug v => exact absurd he (Bool.noConfusion)
  | name_ru v => exact set_autoOn P q _ _ h (by decide)
  | name_en v => exact set_autoOn P q _ _ h (by decide)
  | order_number v => exact set_autoOn P q _ _ h (by decide)
  | is_active v => exact set_autoOn P q _ _ h (by decide)
  | reenableAutoSlug => exact reenable_autoOn P q

theorem genre_applyEdit_autoOn (P : NumOps N) (q : JsObj N) (e : GenreEdit)
    (he : e.isSlug = false) (h : AutoOn P q) : AutoOn P (genre.applyEdit P q e) := by
  cases e with
  | name_uz v => exact (editName_autoOn P q v h).1
  | slug v => exact absurd he (Bool.noConfusion)
  | name_ru v => exact set_autoOn P q _ _ h (by decide)
  | name_en v => exact set_autoOn P q _ _ h (by decide)
  | icon v => exact set_autoOn P q _ _ h (by decide)
  | is_active v => exact set_autoOn P q _ _ h (by decide)
  | reenableAutoSlug => exact reenable_autoOn P q

theorem category_applyEdits_autoOn (P : NumOps N) (es : List CategoryEdit) (q : JsObj N)
    (hes : ∀ e ∈ es, e.isSlug = false) (h : AutoOn P q) :
    AutoOn P (category.applyEdits P q es) := by
  induction es generalizing q with
  | nil => exact h
  | cons e es ih =>
    exact ih _ (fun e' he' => hes e' (List.mem_cons_of_mem _ he'))
      (category_applyEdit_autoOn P q e (hes e (List.mem_cons_self _ _)) h)

theorem genre_applyEdits_autoOn (P : NumOps N) (es : List GenreEdit) (q : JsObj N)
    (hes : ∀ e ∈ es, e.isSlug = false) (h : AutoOn P q) :
    AutoOn P (genre.applyEdits P q es) := by
  induction es generalizing q with
  | nil => exact h
  | cons e es ih =>
    exact ih _ (fun e' he' => hes e' (List.mem_cons_of_mem _ he'))
      (genre_applyEdit_autoOn P q e (hes e (List.mem_cons_self _ _)) h)

end SlugEdits

/-- C10: in the category and genre forms, from any form state `p`: after an edit of the
slug input, every sequence of edits holding neither a slug edit nor `Re-enable auto-slug`
leaves `slug` as that edit set it, whatever `name_uz` becomes; after
`Re-enable auto-slug` the slug is `toSlug` of the current `name_uz`, and, as long as the
slug input is not edited, a later change of `name_uz` to `w` sets `slug` to `toSlug(w)`. -/
theorem slug_edit_suspends_auto {N : Type} (P : NumOps N) (p : JsObj N) (v w : Str)
    (cs cs' : List CategoryEdit) (gs gs' : List GenreEdit)
    (hcs : ∀ e ∈ cs, e.isSlug = false ∧ e.isReenable = false)
    (hcs' : ∀ e ∈ cs', e.isSlug = false)
    (hgs : ∀ e ∈ gs, e.isSlug = false ∧ e.isReenable = false)
    (hgs' : ∀ e ∈ gs', e.isSlug = false) :
    (get (category.applyEdits P (category.applyEdit P p (.slug v)) cs) "slug" =
        get (category.applyEdit P p (.slug v)) "slug" ∧
      get (category.applyEdit P p .reenableAutoSlug) "slug" =
        .str (toSlug P (get (category.applyEdit P p .reenableAutoSlug) "name_uz")) ∧
      get (category.applyEdit P
          (category.applyEdits P (category.applyEdit P p .reenableAutoSlug) cs')
          (.name_uz w)) "slug" = .str (toSlug P (.str w))) ∧
    (get (genre.applyEdits P (genre.applyEdit P p (.slug v)) gs) "slug" =
        get (genre.applyEdit P p (.slug v)) "slug" ∧
      get (genre.applyEdit P p .reenableAutoSlug) "slug" =
        .str (toSlug P (get (genre.applyEdit P p .reenableAutoSlug) "name_uz")) ∧
      get (genre.applyEdit P
          (genre.applyEdits P (genre.applyEdit P p .reenableAutoSlug) gs')
          (.name_uz w)) "slug" = .str (toSlug P (.str w))) := by
  have h0 := editSlug_suspended P p v
  refine ⟨⟨?_, reenable_slug P p, ?_⟩, ⟨?_, reenable_slug P p, ?_⟩⟩
  · exact ((category_applyEdits_suspended P _ cs _ hcs h0).2).trans h0.2.symm
  · exact (editName_autoOn P _ w
      (category_applyEdits_autoOn P cs' _ hcs' (reenable_autoOn P p))).2
  · exact ((genre_applyEdits_suspended P _ gs _ hgs h0).2).trans h0.2.symm
  · exact (editName_autoOn P _ w (genre_applyEdits_autoOn P gs' _ hgs' (reenable_autoOn P p))).2

/-- Witness of C10: on the empty category form, the hand-typed slug `My Slug` survives a
renaming, and after `Re-enable auto-slug` the name `Yangi Nom` is followed again. -/
theorem slug_edit_suspends_auto_witness :
    (∀ e ∈ renameCategory, e.isSlug = false ∧ e.isReenable = false) ∧
      (∀ e ∈ renameCategory, e.isSlug = false) ∧
      (∀ e ∈ renameGenre, e.isSlug = false ∧ e.isReenable = false) ∧
      (∀ e ∈ renameGenre, e.isSlug = false) ∧
      get (category.applyEdits decNum
          (category.applyEdit decNum (category.makeEmpty decNum) (.slug "My Slug"))
          renameCategory) "slug" = .str "my-slug" ∧
      get (category.applyEdit decNum
          (category.applyEdits decNum
            (category.applyEdit decNum (category.makeEmpty decNum) .reenableAutoSlug)
            renameCategory)
          (.name_uz "Yangi Nom")) "slug" = .str "yangi-nom" :=
  have h1 : ∀ e ∈ renameCategory, e.isSlug = false ∧ e.isReenable = false := by decide
  have h2 : ∀ e ∈ renameCategory, e.isSlug = false := by decide
  have h3 : ∀ e ∈ renameGenre, e.isSlug = false ∧ e.isReenable = false := by decide
  have h4 : ∀ e ∈ renameGenre, e.isSlug = false := by decide
  have h := slug_edit_suspends_auto decNum (category.makeEmpty decNum) "My Slug" "Yangi Nom"
    renameCategory renameCategory renameGenre renameGenre h1 h2 h3 h4
  ⟨h1, h2, h3, h4, h.1.1.trans (by decide), h.1.2.2.trans (by decide)⟩


section Sessions

variable {N : Type}

theorem category_makeEmpty_autoOn (P : NumOps N) : AutoOn P (category.makeEmpty P) := rfl

theorem genre_makeEmpty_autoOn (P : NumOps N) : AutoOn P (genre.makeEmpty : JsObj N) := rfl

theorem category_makeFromRow_suspended (P : NumOps N) (row : JsObj N) :
    Suspended P (get (category.makeFromRow P row) "slug") (category.makeFromRow P row) :=
  ⟨rfl, rfl⟩

theorem genre_makeFromRow_suspended (P : NumOps N) (row : JsObj N) :
    Suspended P (get (genre.makeFromRow P row) "slug") (genre.makeFromRow P row) :=
  ⟨rfl, rfl⟩

theorem editName_of_suspended (P : NumOps N) (x : JsVal N) (q : JsObj N) (v : Str)
    (h : Suspended P x q) : get (editName P q v) "slug" = x :=
  (editName_suspended P x q v h).2

end Sessions

/-- C11, as stated, fails: in the edit session opened on the record `Komediya`, with the
slug input untouched, changing `name_uz` to `Drama` leaves the slug `komediya`, which is
not `toSlug` of the new name. -/
theorem edit_session_name_counterexample :
    get (category.applyEdit decNum (category.makeFromRow decNum komediya) (.name_uz "Drama"))
        "slug" = .str "komediya" ∧
      get (category.applyEdit decNum (category.makeFromRow decNum komediya) (.name_uz "Drama"))
        "slug" ≠ .str (toSlug decNum (.str "Drama")) := by
  decide

/-- C11, amended: for category and genre, in a create session (form `makeEmpty()`), as
long as the slug input has not been edited, changing `name_uz` to `v` sets `slug` to
`toSlug(v)`; in an edit session (form `makeFromRow(row)`, where `autoSlug` starts
`false`), as long as neither the slug input nor `Re-enable auto-slug` has been used,
changing `name_uz` leaves `slug` as the row gave it. -/
theorem session_name_edit {N : Type} (P : NumOps N) (row : JsObj N) (v : Str)
    (cs cs' : List CategoryEdit) (gs gs' : List GenreEdit)
    (hcs : ∀ e ∈ cs, e.isSlug = false)
    (hcs' : ∀ e ∈ cs', e.isSlug = false ∧ e.isReenable = false)
    (hgs : ∀ e ∈ gs, e.isSlug = false)
    (hgs' : ∀ e ∈ gs', e.isSlug = false ∧ e.isReenable = false) :
    (get (category.applyEdit P (category.applyEdits P (category.makeEmpty P) cs) (.name_uz v))
          "slug" = .str (toSlug P (.str v)) ∧
      get (category.applyEdit P (category.applyEdits P (category.makeFromRow P row) cs')
          (.name_uz v)) "slug" = get (category.makeFromRow P row) "slug") ∧
    (get (genre.applyEdit P (genre.applyEdits P genre.makeEmpty gs) (.name_uz v))
          "slug" = .str (toSlug P (.str v)) ∧
      get (genre.applyEdit P (genre.applyEdits P (genre.makeFromRow P row) gs')
          (.name_uz v)) "slug" = get (genre.makeFromRow P row) "slug") := by
  refine ⟨⟨?_, ?_⟩, ⟨?_, ?_⟩⟩
  · exact (editName_autoOn P _ v
      (category_applyEdits_autoOn P cs _ hcs (category_makeEmpty_autoOn P))).2
  · exact editName_of_suspended P _ _ v
      (category_applyEdits_suspended P _ cs' _ hcs' (category_makeFromRow_suspended P row))
  · exact (editName_autoOn P _ v
      (genre_applyEdits_autoOn P gs _ hgs (genre_makeEmpty_autoOn P))).2
  · exact editName_of_suspended P _ _ v
      (genre_applyEdits_suspended P _ gs' _ hgs' (genre_makeFromRow_suspended P row))

/-- Witness of C11 amended: after a renaming, the name `Yangi Nom` gives the slug
`yangi-nom` in the create session and leaves `komediya` in the edit session. -/
theorem session_name_edit_witness :
    (∀ e ∈ renameCategory, e.isSlug = false) ∧
      (∀ e ∈ renameCategory, e.isSlug = false ∧ e.isReenable = false) ∧
      (∀ e ∈ renameGenre, e.isSlug = false) ∧
      (∀ e ∈ renameGenre, e.isSlug = false ∧ e.isReenable = false) ∧
      get (category.applyEdit decNum
          (category.applyEdits decNum (category.makeEmpty decNum) renameCategory)
          (.name_uz "Yangi Nom")) "slug" = .str "yangi-nom" ∧
      get (category.applyEdit decNum
          (category.applyEdits decNum (category.makeFromRow decNum komediya) renameCategory)
          (.name_uz "Yangi Nom")) "slug" = .str "komediya" :=
  have h1 : ∀ e ∈ renameCategory, e.isSlug = false := by decide
  have h2 : ∀ e ∈ renameCategory, e.isSlug = false ∧ e.isReenable = false := by decide
  have h3 : ∀ e ∈ renameGenre, e.isSlug = false := by decide
  have h4 : ∀ e ∈ renameGenre, e.isSlug = false ∧ e.isReenable = false := by decide
  have h := session_name_edit decNum komediya "Yangi Nom" renameCategory renameCategory
    renameGenre renameGenre h1 h2 h3 h4
  ⟨h1, h2, h3, h4, h.1.1.trans (by decide), h.1.2.trans (by decide)⟩


section Handlers

variable {N : Type}

theorem submit_of_ok (P : NumOps N) (R : Resource N) (server : Server N) (st : State N)
    (h : missingFields P R (R.toPayload st.form) = [])
    (hs : (saveMutation R server (R.toPayload st.form) st.mode (currentId st.current)).1 =
      .ok ()) :
    submit P R server st =
      { state :=
          { showToast st
              (Toast.mk "success" (if st.mode = .create then "Created" else "Updated")
                "Saved") with
            modalOpen := false }
        requests :=
          (saveMutation R server (R.toPayload st.form) st.mode (currentId st.current)).2
        invalidated := [R.key] } := by
  unfold submit
  simp only [h, List.length_nil, ne_eq, not_true_eq_false, if_false]
  generalize saveMutation R server (R.toPayload st.form) st.mode (currentId st.current) = res
    at hs
  obtain ⟨r, rqs⟩ := res
  cases r with
  | ok u => rfl
  | error m => exact absurd hs (by simp)

theorem submit_of_error (P : NumOps N) (R : Resource N) (server : Server N) (st : State N)
    (m : Str) (h : missingFields P R (R.toPayload st.form) = [])
    (hs : (saveMutation R server (R.toPayload st.form) st.mode (currentId st.current)).1 =
      .error m) :
    submit P R server st =
      { state := showToast st (Toast.mk "error" "Save failed" m)
        requests :=
          (saveMutation R server (R.toPayload st.form) st.mode (currentId st.current)).2
        invalidated := [] } := by
  unfold submit
  simp only [h, List.length_nil, ne_eq, not_true_eq_false, if_false]
  generalize saveMutation R server (R.toPayload st.form) st.mode (currentId st.current) = res
    at hs
  obtain ⟨r, rqs⟩ := res
  cases r with
  | ok u => exact absurd hs (by simp)
  | error m' =>
    simp only [Except.error.injEq] at hs
    subst hs
    rfl

theorem remove_of_declined (P : NumOps N) (R : Resource N) (server : Server N)
    (confirm : Str → Bool) (st : State N) (row : JsObj N)
    (h : confirm (confirmText P R row) = false) :
    remove P R server confirm st row = { state := st, requests := [], invalidated := [] } := by
  unfold remove
  simp only [h, Bool.not_false, if_true]

theorem remove_of_ok (P : NumOps N) (R : Resource N) (server : Server N)
    (confirm : Str → Bool) (st : State N) (row : JsObj N)
    (h : confirm (confirmText P R row) = true)
    (hs : (removeMutation R server (get row "id")).1 = .ok ()) :
    remove P R server confirm st row =
      { state := showToast st (Toast.mk "success" "Deleted" "Removed")
        requests := (removeMutation R server (get row "id")).2
        invalidated := [R.key] } := by
  unfold remove
  simp only [h, Bool.not_true, Bool.false_eq_true, if_false]
  generalize removeMutation R server (get row "id") = res at hs
  obtain ⟨r, rqs⟩ := res
  cases r with
  | ok u => rfl
  | error m => exact absurd hs (by simp)

theorem remove_of_error (P : NumOps N) (R : Resource N) (server : Server N)
    (confirm : Str → Bool) (st : State N) (row : JsObj N) (m : Str)
    (h : confirm (confirmText P R row) = true)
    (hs : (removeMutation R server (get row "id")).1 = .error m) :
    remove P R server confirm st row =
      { state := showToast st (Toast.mk "error" "Delete failed" m)
        requests := (removeMutation R server (get row "id")).2
        invalidated := [] } := by
  unfold remove
  simp only [h, Bool.not_true, Bool.false_eq_true, if_false]
  generalize removeMutation R server (get row "id") = res at hs
  obtain ⟨r, rqs⟩ := res
  cases r with
  | ok u => exact absurd hs (by simp)
  | error m' =>
    simp only [Except.error.injEq] at hs
    subst hs
    rfl

theorem except_unit_cases (r : Except Str Unit) : r = .ok () ∨ ∃ m, r = .error m := by
  cases r with
  | ok u => exact Or.inl rfl
  | error m => exact Or.inr ⟨m, rfl⟩

theorem submit_invalidated (P : NumOps N) (R : Resource N) (server : Server N)
    (st : State N) :
    ((missingFields P R (R.toPayload st.form) = [] ∧
          (saveMutation R server (R.toPayload st.form) st.mode (currentId st.current)).1 =
            .ok ()) ∧
        (submit P R server st).invalidated = [R.key]) ∨
      (¬ (missingFields P R (R.toPayload st.form) = [] ∧
          (saveMutation R server (R.toPayload st.form) st.mode (currentId st.current)).1 =
            .ok ()) ∧
        (submit P R server st).invalidated = []) := by
  by_cases hm : missingFields P R (R.toPayload st.form) = []
  · rcases except_unit_cases
        (saveMutation R server (R.toPayload st.form) st.mode (currentId st.current)).1 with
      hs | ⟨m, hs⟩
    · rw [submit_of_ok P R server st hm hs]
      exact Or.inl ⟨⟨hm, hs⟩, rfl⟩
    · rw [submit_of_error P R server st m hm hs]
      refine Or.inr ⟨?_, rfl⟩
      rintro ⟨_, h⟩
      rw [hs] at h
      exact absurd h (by simp)
  · rw [submit_of_missing P R server st hm]
    exact Or.inr ⟨fun h => hm h.1, rfl⟩

theorem remove_invalidated (P : NumOps N) (R : Resource N) (server : Server N)
    (confirm : Str → Bool) (st : State N) (row : JsObj N) :
    ((confirm (confirmText P R row) = true ∧
          (removeMutation R server (get row "id")).1 = .ok ()) ∧
        (remove P R server confirm st row).invalidated = [R.key]) ∨
      (¬ (confirm (confirmText P R row) = true ∧
          (removeMutation R server (get row "id")).1 = .ok ()) ∧
        (remove P R server confirm st row).invalidated = []) := by
  cases hc : confirm (confirmText P R row) with
  | false =>
    rw [remove_of_declined P R server confirm st row hc]
    refine Or.inr ⟨?_, rfl⟩
    rintro ⟨h, _⟩
    exact absurd h (by simp)
  | true =>
    rcases except_unit_cases (removeMutation R server (get row "id")).1 with hs | ⟨m, hs⟩
    · rw [remove_of_ok P R server confirm st row hc hs]
      exact Or.inl ⟨⟨rfl, hs⟩, rfl⟩
    · rw [remove_of_error P R server confirm st row m hc hs]
      refine Or.inr ⟨?_, rfl⟩
      rintro ⟨_, h⟩
      rw [hs] at h
      exact absurd h (by simp)

end Handlers


/-- C12: for every descriptor, the cached list of the resource key is invalidated by
`submit` exactly when the form passes validation and the save succeeds, and by `remove`
exactly when the prompt is confirmed and the delete succeeds; it is left alone when the
request fails, when validation rejects the form and when the prompt is declined. -/
theorem invalidate_iff_success {N : Type} (P : NumOps N) (R : Resource N) (server : Server N)
    (confirm : Str → Bool) (st : State N) (row : JsObj N) :
    ((submit P R server st).invalidated = [R.key] ↔
        missingFields P R (R.toPayload st.form) = [] ∧
          (saveMutation R server (R.toPayload st.form) st.mode (currentId st.current)).1 =
            .ok ()) ∧
      ((submit P R server st).invalidated = [] ↔
        ¬ (missingFields P R (R.toPayload st.form) = [] ∧
          (saveMutation R server (R.toPayload st.form) st.mode (currentId st.current)).1 =
            .ok ())) ∧
      ((remove P R server confirm st row).invalidated = [R.key] ↔
        confirm (confirmText P R row) = true ∧
          (removeMutation R server (get row "id")).1 = .ok ()) ∧
      ((remove P R server confirm st row).invalidated = [] ↔
        ¬ (confirm (confirmText P R row) = true ∧
          (removeMutation R server (get row "id")).1 = .ok ())) := by
  refine ⟨⟨?_, ?_⟩, ⟨?_, ?_⟩, ⟨?_, ?_⟩, ⟨?_, ?_⟩⟩
  · intro h
    rcases submit_invalidated P R server st with ⟨hc, _⟩ | ⟨_, he⟩
    · exact hc
    · rw [he] at h
      exact absurd h (List.cons_ne_nil _ _).symm
  · intro hc
    rcases submit_invalidated P R server st with ⟨_, he⟩ | ⟨hn, _⟩
    · exact he
    · exact absurd hc hn
  · intro h
    rcases submit_invalidated P R server st with ⟨_, he⟩ | ⟨hn, _⟩
    · rw [he] at h
      exact absurd h (List.cons_ne_nil _ _)
    · exact hn
  · intro hn
    rcases submit_invalidated P R server st with ⟨hc, _⟩ | ⟨_, he⟩
    · exact absurd hc hn
    · exact he
  · intro h
    rcases remove_invalidated P R server confirm st row with ⟨hc, _⟩ | ⟨_, he⟩
    · exact hc
    · rw [he] at h
      exact absurd h (List.cons_ne_nil _ _).symm
  · intro hc
    rcases remove_invalidated P R server confirm st row with ⟨_, he⟩ | ⟨hn, _⟩
    · exact he
    · exact absurd hc hn
  · intro h
    rcases remove_invalidated P R server confirm st row with ⟨_, he⟩ | ⟨hn, _⟩
    · rw [he] at h
      exact absurd h (List.cons_ne_nil _ _)
    · exact hn
  · intro hn
    rcases remove_invalidated P R server confirm st row with ⟨hc, _⟩ | ⟨_, he⟩
    · exact absurd hc hn
    · exact he

/-- C13: for every submit with the modal open, the modal is closed afterwards exactly when
the save succeeded; after a failed save the modal is still open, the draft, the mode and
the current record are unchanged and the notification is the error `Save failed` with the
message of the failure; after a failed delete the notification is the error
`Delete failed` with the message of the failure. -/
theorem modal_closes_iff_saved {N : Type} (P : NumOps N) (R : Resource N) (server : Server N)
    (confirm : Str → Bool) (st : State N) (row : JsObj N) (hopen : st.modalOpen = true) :
    ((submit P R server st).state.modalOpen = false ↔
        missingFields P R (R.toPayload st.form) = [] ∧
          (saveMutation R server (R.toPayload st.form) st.mode (currentId st.current)).1 =
            .ok ()) ∧
      (∀ m, missingFields P R (R.toPayload st.form) = [] →
        (saveMutation R server (R.toPayload st.form) st.mode (currentId st.current)).1 =
          .error m →
        (submit P R server st).state.modalOpen = true ∧
          (submit P R server st).state.form = st.form ∧
          (submit P R server st).state.mode = st.mode ∧
          (submit P R server st).state.current = st.current ∧
          (submit P R server st).state.toast = some (Toast.mk "error" "Save failed" m)) ∧
      (∀ m, confirm (confirmText P R row) = true →
        (removeMutation R server (get row "id")).1 = .error m →
        (remove P R server confirm st row).state.toast =
          some (Toast.mk "error" "Delete failed" m)) := by
  refine ⟨⟨?_, ?_⟩, ?_, ?_⟩
  · intro h
    by_cases hm : missingFields P R (R.toPayload st.form) = []
    · rcases except_unit_cases
          (saveMutation R server (R.toPayload st.form) st.mode (currentId st.current)).1 with
        hs | ⟨m, hs⟩
      · exact ⟨hm, hs⟩
      · rw [submit_of_error P R server st m hm hs] at h
        simp only [showToast] at h
        rw [hopen] at h
        exact absurd h (by simp)
    · rw [submit_of_missing P R server st hm] at h
      simp only [showToast] at h
      rw [hopen] at h
      exact absurd h (by simp)
  · rintro ⟨hm, hs⟩
    rw [submit_of_ok P R server st hm hs]
  · intro m hm hs
    rw [submit_of_error P R server st m hm hs]
    exact ⟨hopen, rfl, rfl, rfl, rfl⟩
  · intro m hc hs
    rw [remove_of_error P R server confirm st row m hc hs]
    rfl

/-- Witness of C13: the create form of category is open on a complete draft and the
store rejects the request; the modal stays open under the notification `Save failed`. -/
theorem modal_closes_iff_saved_witness :
    (creating draftForm).modalOpen = true ∧
      (submit decNum (category.resource decNum) rejectAll (creating draftForm)).state.modalOpen =
        true ∧
      (submit decNum (category.resource decNum) rejectAll (creating draftForm)).state.toast =
        some (Toast.mk "error" "Save failed" "Not found") ∧
      (submit decNum (category.resource decNum) acceptAll (creating draftForm)).state.modalOpen =
        false :=
  have hopen : (creating draftForm).modalOpen = true := rfl
  have hm : missingFields decNum (category.resource decNum)
      ((category.resource decNum).toPayload (creating draftForm).form) = [] := by decide
  have hbad := (modal_closes_iff_saved decNum (category.resource decNum) rejectAll
    acceptPrompt (creating draftForm) komediya hopen).2.1 "Not found" hm rfl
  have hgood := (modal_closes_iff_saved decNum (category.resource decNum) acceptAll
    acceptPrompt (creating draftForm) komediya hopen).1.2 ⟨hm, rfl⟩
  ⟨hopen, hbad.1, hbad.2.2.2.2, hgood⟩

/-- C14: for each of the nine descriptors, a form that passes validation and any record: a
submit in create mode issues exactly one request, `POST` to `paths.create` with body
`toPayload(form)`; a submit in edit mode issues exactly one request, `PATCH` to
`paths.update(id)` for the id of the record opened for edit, with the same body; a
confirmed delete of a row issues exactly one request, `DELETE` to `paths.remove(row.id)`,
without a body. -/
theorem requests_issued {N : Type} (P : NumOps N) (R : Resource N)
    (hR : R ∈ createResources P) (server : Server N) (confirm : Str → Bool) (st : State N)
    (row : JsObj N) :
    ∃ update remove', R.paths.update = some update ∧ R.paths.remove = some remove' ∧
      (st.mode = .create → missingFields P R (R.toPayload st.form) = [] →
        (submit P R server st).requests =
          [⟨.POST, R.paths.create, some (R.toPayload st.form)⟩]) ∧
      (∀ record, st.mode = .edit → st.current = some record →
        missingFields P R (R.toPayload st.form) = [] →
        (submit P R server st).requests =
          [⟨.PATCH, update (get record "id"), some (R.toPayload st.form)⟩]) ∧
      (confirm (confirmText P R row) = true →
        (remove P R server confirm st row).requests =
          [⟨.DELETE, remove' (get row "id"), none⟩]) := by
  have hex : ∃ update remove', R.paths.update = some update ∧ R.paths.remove = some remove' := by
    rcases mem_createResources P R hR with h | h | h | h | h | h | h | h | h <;> subst h <;>
      exact ⟨_, _, rfl, rfl⟩
  obtain ⟨update, remove', hu, hr⟩ := hex
  refine ⟨update, remove', hu, hr, ?_, ?_, ?_⟩
  · intro hmode hm
    rw [submit_requests P R server st hm, hmode]
    rfl
  · intro record hmode hcur hm
    rw [submit_requests P R server st hm, hmode, hcur]
    simp only [saveMutation, hu, currentId]
  · intro hc
    have h2 : (removeMutation R server (get row "id")).2 =
        [⟨.DELETE, remove' (get row "id"), none⟩] := by
      simp only [removeMutation, hr]
    rcases except_unit_cases (removeMutation R server (get row "id")).1 with hs | ⟨m, hs⟩
    · rw [remove_of_ok P R server confirm st row hc hs, h2]
    · rw [remove_of_error P R server confirm st row m hc hs, h2]

/-- Witness of C14: saving the edit form opened on the record `Komediya` (id 7) sends one
`PATCH` to `/category/7`, and deleting the record sends one `DELETE` to `/category/7`. -/
theorem requests_issued_witness :
    category.resource decNum ∈ createResources decNum ∧
      (submit decNum (category.resource decNum) acceptAll (editing komediya)).requests.map
          (fun rq => (rq.method, rq.path)) = [(Method.PATCH, ("/category/7" : Str))] ∧
      (remove decNum (category.resource decNum) acceptAll acceptPrompt (editing komediya)
          komediya).requests.map (fun rq => (rq.method, rq.path)) =
        [(Method.DELETE, ("/category/7" : Str))] :=
  have hR : category.resource decNum ∈ createResources decNum :=
    List.mem_cons_of_mem _ (List.mem_cons_self _ _)
  have hm : missingFields decNum (category.resource decNum)
      ((category.resource decNum).toPayload (editing komediya).form) = [] := by decide
  match requests_issued decNum (category.resource decNum) hR acceptAll acceptPrompt
      (editing komediya) komediya with
  | ⟨update, remove', hu, hr, _, hedit, hdel⟩ =>
    have hu' : update = idPath decNum "/category" := (Option.some.inj hu).symm
    have hr' : remove' = idPath decNum "/category" := (Option.some.inj hr).symm
    ⟨hR,
      by rw [hedit komediya rfl rfl hm, hu']; decide,
      by rw [hdel rfl, hr']; decide⟩

/-- C18: for every descriptor, row and controller state, `remove(row)` with the
confirmation declined issues no request, invalidates no cached list and leaves the
controller state, its notification included, as it was. -/
theorem remove_declined_is_noop {N : Type} (P : NumOps N) (R : Resource N) (server : Server N)
    (confirm : Str → Bool) (st : State N) (row : JsObj N)
    (hdeclined : confirm (confirmText P R row) = false) :
    (remove P R server confirm st row).requests = [] ∧
      (remove P R server confirm st row).invalidated = [] ∧
      (remove P R server confirm st row).state = st := by
  rw [remove_of_declined P R server confirm st row hdeclined]
  exact ⟨rfl, rfl, rfl⟩

/-- Witness of C18: the operator declines the deletion of the record `Komediya`. -/
theorem remove_declined_is_noop_witness :
    declinePrompt (confirmText decNum (category.resource decNum) komediya) = false ∧
      (remove decNum (category.resource decNum) acceptAll declinePrompt (editing komediya)
          komediya).requests = [] ∧
      (remove decNum (category.resource decNum) acceptAll declinePrompt (editing komediya)
          komediya).invalidated = [] ∧
      (remove decNum (category.resource decNum) acceptAll declinePrompt (editing komediya)
          komediya).state = editing komediya :=
  ⟨rfl, remove_declined_is_noop decNum (category.resource decNum) acceptAll declinePrompt
    (editing komediya) komediya rfl⟩


section Titles

variable {N : Type}

theorem orElse_of_truthy (P : NumOps N) (a b : JsVal N) (h : truthy P a = true) :
    orElse P a b = a := by
  unfold orElse
  rw [if_pos h]

theorem orElse_of_falsy (P : NumOps N) (a b : JsVal N) (h : truthy P a = false) :
    orElse P a b = b := by
  unfold orElse
  rw [if_neg (by simp [h])]

theorem remove_congr (P : NumOps N) (R : Resource N) (server : Server N)
    (c c' : Str → Bool) (st : State N) (row : JsObj N)
    (h : c (confirmText P R row) = c' (confirmText P R row)) :
    remove P R server c st row = remove P R server c' st row := by
  unfold remove
  rw [h]

end Titles

section Prompt

variable {N : Type}

theorem confirmText_eq (P : NumOps N) (R : Resource N) (row : JsObj N) :
    confirmText P R row =
      ("Delete \"" : Str) ++ jsString P (R.rowTitle row) ++ "\"?" ++ "\n\n" ++
        "This cannot be undone." := by
  simp only [confirmText, List.append_assoc]
  rfl

theorem remove_of_confirmed (P : NumOps N) (R : Resource N) (server : Server N)
    (confirm : Str → Bool) (st : State N) (row : JsObj N)
    (h : confirm (confirmText P R row) = true) :
    (remove P R server confirm st row).requests = (removeMutation R server (get row "id")).2 ∧
      (((removeMutation R server (get row "id")).1 = .ok () ∧
          (remove P R server confirm st row).state.toast =
            some (Toast.mk "success" "Deleted" "Removed")) ∨
        ∃ m, (removeMutation R server (get row "id")).1 = .error m ∧
          (remove P R server confirm st row).state.toast =
            some (Toast.mk "error" "Delete failed" m)) := by
  rcases except_unit_cases (removeMutation R server (get row "id")).1 with hs | ⟨m, hs⟩
  · rw [remove_of_ok P R server confirm st row h hs]
    exact ⟨rfl, Or.inl ⟨hs, rfl⟩⟩
  · rw [remove_of_error P R server confirm st row m h hs]
    exact ⟨rfl, Or.inr ⟨m, hs, rfl⟩⟩

theorem category_confirmText_komediya (P : NumOps N) (row : JsObj N)
    (h : get row "name_uz" = .str "Komediya") :
    confirmText P (category.resource P) row =
      ("Delete \"Komediya\"?\n\nThis cannot be undone." : Str) := by
  have e : category.rowTitle P row = .str "Komediya" := by
    unfold category.rowTitle
    rw [h]
    rfl
  show ("Delete \"" : Str) ++ jsString P (category.rowTitle P row) ++ _ = _
  rw [e]
  rfl

end Prompt

/-- C19: for every descriptor and row, `remove(row)` asks for confirmation with the text
`Delete "T"?`, an empty line and `This cannot be undone.`, where `T` is the string form of
`rowTitle(row)`: whatever else the operator would answer, a refusal of this very text
leaves everything as it was, and an acceptance of it sends the delete request and shows
`Deleted` or `Delete failed`. For category and genre rows the title is `name_uz` when it
is non-empty (truthy), else `slug` when that is non-empty, else `id`; so for a category
row named `Komediya` the text that decides is `Delete "Komediya"?`, an empty line and
`This cannot be undone.`. -/
theorem confirm_names_row {N : Type} (P : NumOps N) (R : Resource N) (server : Server N)
    (st : State N) (row : JsObj N) :
    (∀ confirm : Str → Bool,
        confirm (("Delete \"" : Str) ++ jsString P (R.rowTitle row) ++ "\"?" ++ "\n\n" ++
            "This cannot be undone.") = false →
        remove P R server confirm st row = { state := st, requests := [], invalidated := [] }) ∧
      (∀ confirm : Str → Bool,
        confirm (("Delete \"" : Str) ++ jsString P (R.rowTitle row) ++ "\"?" ++ "\n\n" ++
            "This cannot be undone.") = true →
        (remove P R server confirm st row).requests =
            (removeMutation R server (get row "id")).2 ∧
          (((removeMutation R server (get row "id")).1 = .ok () ∧
              (remove P R server confirm st row).state.toast =
                some (Toast.mk "success" "Deleted" "Removed")) ∨
            ∃ m, (removeMutation R server (get row "id")).1 = .error m ∧
              (remove P R server confirm st row).state.toast =
                some (Toast.mk "error" "Delete failed" m))) ∧
      ((truthy P (get row "name_uz") = true →
          (category.resource P).rowTitle row = get row "name_uz" ∧
            (genre.resource P).rowTitle row = get row "name_uz") ∧
        (truthy P (get row "name_uz") = false → truthy P (get row "slug") = true →
          (category.resource P).rowTitle row = get row "slug" ∧
            (genre.resource P).rowTitle row = get row "slug") ∧
        (truthy P (get row "name_uz") = false → truthy P (get row "slug") = false →
          (category.resource P).rowTitle row = get row "id" ∧
            (genre.resource P).rowTitle row = get row "id")) ∧
      (get row "name_uz" = .str "Komediya" →
        (∀ confirm : Str → Bool,
          confirm ("Delete \"Komediya\"?\n\nThis cannot be undone." : Str) = false →
          remove P (category.resource P) server confirm st row =
            { state := st, requests := [], invalidated := [] }) ∧
        (∀ confirm : Str → Bool,
          confirm ("Delete \"Komediya\"?\n\nThis cannot be undone." : Str) = true →
          (remove P (category.resource P) server confirm st row).requests =
            [⟨.DELETE, ("/category/" : Str) ++ jsString P (get row "id"), none⟩])) := by
  refine ⟨?_, ?_, ⟨?_, ?_, ?_⟩, ?_⟩
  · intro confirm h
    rw [← confirmText_eq] at h
    exact remove_of_declined P R server confirm st row h
  · intro confirm h
    rw [← confirmText_eq] at h
    exact remove_of_confirmed P R server confirm st row h
  · intro h
    have e : category.rowTitle P row = get row "name_uz" := by
      unfold category.rowTitle
      rw [orElse_of_truthy P _ _ h, orElse_of_truthy P _ _ h]
    exact ⟨e, e⟩
  · intro h1 h2
    have e : category.rowTitle P row = get row "slug" := by
      unfold category.rowTitle
      rw [orElse_of_falsy P _ _ h1, orElse_of_truthy P _ _ h2]
    exact ⟨e, e⟩
  · intro h1 h2
    have e : category.rowTitle P row = get row "id" := by
      unfold category.rowTitle
      rw [orElse_of_falsy P _ _ h1, orElse_of_falsy P _ _ h2]
    exact ⟨e, e⟩
  · intro hk
    have ht := category_confirmText_komediya P row hk
    refine ⟨?_, ?_⟩
    · intro confirm h
      rw [← ht] at h
      exact remove_of_declined P _ server confirm st row h
    · intro confirm h
      rw [← ht] at h
      rw [(remove_of_confirmed P _ server confirm st row h).1]
      rfl

/-- Sample runs of `remove` on the record `Komediya`: an operator who accepts only the
text naming `Komediya` has the record deleted, and an operator who accepts every text but
this one has nothing done. -/
theorem remove_samples :
    (remove decNum (category.resource decNum) acceptAll
        (fun text => text == ("Delete \"Komediya\"?\n\nThis cannot be undone." : Str))
        (editing komediya) komediya).invalidated = ["category"] ∧
      (remove decNum (category.resource decNum) acceptAll
        (fun text => text != ("Delete \"Komediya\"?\n\nThis cannot be undone." : Str))
        (editing komediya) komediya).state = editing komediya := by
  constructor
  · decide
  · rfl

/-- C17: for the actor descriptor and every string `s`, the payload of the empty form with
`full_name` set to `s` is `{full_name: s trimmed, photo_url: "", birth_year: 0,
biography: "", country: ""}`; for `Jane Doe` the name is kept as it is, the payload passes
the required-field check, and the title of a row with this name is `Jane Doe`. -/
theorem actor_payload_of_name {N : Type} (P : NumOps N) (s : Str) :
    actor.toPayload P (set actor.makeEmpty "full_name" (.str s)) =
        ([("full_name", .str (trim s)), ("photo_url", .str ""), ("birth_year", .num P.zero),
          ("biography", .str ""), ("country", .str "")] : JsObj N) ∧
      actor.toPayload P (set actor.makeEmpty "full_name" (.str "Jane Doe")) =
        ([("full_name", .str "Jane Doe"), ("photo_url", .str ""), ("birth_year", .num P.zero),
          ("biography", .str ""), ("country", .str "")] : JsObj N) ∧
      missingFields P (actor.resource P)
          ((actor.resource P).toPayload (set actor.makeEmpty "full_name" (.str "Jane Doe"))) =
        [] ∧
      (∀ row : JsObj N, get row "full_name" = .str "Jane Doe" →
        (actor.resource P).rowTitle row = .str "Jane Doe") := by
  refine ⟨rfl, rfl, rfl, ?_⟩
  intro row h
  show orElse P (get row "full_name") (get row "id") = _
  rw [h]
  rfl

/-- C20: `createResources()` returns exactly nine descriptors, with the pairwise distinct
keys actor, category, director, genre, movie, movie_actor, movie_category, movie_director
and movie_genre; for each descriptor of key `k`, `paths.list` and `paths.create` are
`/k`, `paths.update` and `paths.remove` are both present, and both map every id to
`/k/id`. -/
theorem createResources_table {N : Type} (P : NumOps N) :
    (createResources P).length = 9 ∧
      (createResources P).map (fun R => R.key) =
        (["actor", "category", "director", "genre", "movie", "movie_actor",
          "movie_category", "movie_director", "movie_genre"] : List Str) ∧
      ((createResources P).map (fun R => R.key)).Nodup ∧
      (∀ R ∈ createResources P,
        R.paths.list = ("/" : Str) ++ R.key ∧ R.paths.create = ("/" : Str) ++ R.key ∧
          ∃ update remove', R.paths.update = some update ∧ R.paths.remove = some remove' ∧
            ∀ id, update id = ("/" : Str) ++ R.key ++ "/" ++ jsString P id ∧
              remove' id = ("/" : Str) ++ R.key ++ "/" ++ jsString P id) := by
  have hkeys : (createResources P).map (fun R => R.key) =
      (["actor", "category", "director", "genre", "movie", "movie_actor",
        "movie_category", "movie_director", "movie_genre"] : List Str) := rfl
  refine ⟨rfl, hkeys, ?_, ?_⟩
  · rw [hkeys]
    decide
  · intro R hR
    rcases mem_createResources P R hR with h | h | h | h | h | h | h | h | h <;> subst h <;>
      exact ⟨rfl, rfl, _, _, rfl, rfl, fun _ => ⟨rfl, rfl⟩⟩


section Fetch

variable {N : Type}

theorem field_of_falsy (P : NumOps N) (data : Data N) (k : Str)
    (h : data.truthy P = false) : data.field k = .undefined := by
  cases data with
  | scalar v => rfl
  | object o => exact absurd h (by simp [Data.truthy])
  | array rows => rfl

theorem errorMsg_eq (P : NumOps N) (data : Data N) (status : Nat) :
    errorMsg P data status =
      if truthy P (orElse P (orElse P (data.field "message") (data.field "error"))
          (data.field "detail")) = true
      then orElse P (orElse P (data.field "message") (data.field "error"))
          (data.field "detail")
      else .str (requestFailed status) := by
  unfold errorMsg
  cases hd : data.truthy P with
  | true => simp
  | false =>
    simp only [field_of_falsy P data _ hd]
    rfl

theorem apiFetch_of_ok (P : NumOps N) (parse : JsonParse N) (res : Response)
    (h : res.ok = true) : apiFetch P parse res = .ok (readBody parse res.text) := by
  unfold apiFetch
  simp [h]

theorem apiFetch_of_not_ok (P : NumOps N) (parse : JsonParse N) (res : Response)
    (h : res.ok = false) :
    apiFetch P parse res =
      .error { message := jsString P (errorMsg P (readBody parse res.text) res.status),
               status := res.status, payload := readBody parse res.text } := by
  unfold apiFetch
  simp [h]

theorem ok_iff (res : Response) : res.ok = true ↔ 200 ≤ res.status ∧ res.status ≤ 299 := by
  unfold Response.ok
  simp

theorem readBody_scalar_of_not_json (parse : JsonParse N) (text : Str)
    (h : text = [] ∨ parse text = none) : ∃ v, readBody parse text = .scalar v := by
  unfold readBody
  rcases h with h | h
  · subst h
    exact ⟨_, rfl⟩
  · split_ifs
    · exact ⟨_, rfl⟩
    · rw [h]
      exact ⟨_, rfl⟩

end Fetch

section FetchMessage

variable {N : Type}

theorem readBody_of_empty (parse : JsonParse N) (text : Str) (h : text = []) :
    readBody parse text = .scalar .null := by
  simp [readBody, h]

theorem readBody_of_not_json (parse : JsonParse N) (text : Str) (h : text ≠ [])
    (hp : parse text = none) : readBody parse text = .scalar (.str text) := by
  simp [readBody, h, hp]

theorem readBody_of_json (parse : JsonParse N) (text : Str) (data : Data N) (h : text ≠ [])
    (hp : parse text = some data) : readBody parse text = data := by
  simp [readBody, h, hp]

theorem errorMsg_scalar (P : NumOps N) (v : JsVal N) (status : Nat) :
    jsString P (errorMsg P (.scalar v) status) = requestFailed status := by
  rw [errorMsg_eq]
  rfl

theorem errorMsg_array (P : NumOps N) (rs : List (JsObj N)) (status : Nat) :
    jsString P (errorMsg P (.array rs) status) = requestFailed status := by
  rw [errorMsg_eq]
  rfl

theorem errorMsg_object (P : NumOps N) (o : JsObj N) (status : Nat) :
    (truthy P (get o "message") = true →
        jsString P (errorMsg P (.object o) status) = jsString P (get o "message")) ∧
      (truthy P (get o "message") = false → truthy P (get o "error") = true →
        jsString P (errorMsg P (.object o) status) = jsString P (get o "error")) ∧
      (truthy P (get o "message") = false → truthy P (get o "error") = false →
        truthy P (get o "detail") = true →
        jsString P (errorMsg P (.object o) status) = jsString P (get o "detail")) ∧
      (truthy P (get o "message") = false → truthy P (get o "error") = false →
        truthy P (get o "detail") = false →
        jsString P (errorMsg P (.object o) status) = requestFailed status) := by
  refine ⟨?_, ?_, ?_, ?_⟩
  · intro h1
    rw [errorMsg_eq]
    simp only [Data.field]
    rw [orElse_of_truthy P _ _ h1, orElse_of_truthy P _ _ h1, if_pos h1]
  · intro h1 h2
    rw [errorMsg_eq]
    simp only [Data.field]
    rw [orElse_of_falsy P _ _ h1, orElse_of_truthy P _ _ h2, if_pos h2]
  · intro h1 h2 h3
    rw [errorMsg_eq]
    simp only [Data.field]
    rw [orElse_of_falsy P _ _ h1, orElse_of_falsy P _ _ h2, if_pos h3]
  · intro h1 h2 h3
    rw [errorMsg_eq]
    simp only [Data.field]
    rw [orElse_of_falsy P _ _ h1, orElse_of_falsy P _ _ h2,
      if_neg (by rw [h3]; exact Bool.false_ne_true)]
    rfl

end FetchMessage

/-- C15: for every response, `apiFetch` fails exactly when the status is not 2xx; the
failure carries the status and the body as read (`null` for an empty text, the text itself
when it is not JSON, the value of `JSON.parse` otherwise); when the body is a JSON object
the message is the string form of the first non-empty (truthy) of its fields `message`,
`error` and `detail`, in that order; when there is none, and when the body is empty, not
JSON, an array or a scalar, the message is the text `Request failed (<status>)`. -/
theorem apiFetch_failure {N : Type} (P : NumOps N) (parse : JsonParse N) (res : Response) :
    ((∃ e, apiFetch P parse res = .error e) ↔ ¬ (200 ≤ res.status ∧ res.status ≤ 299)) ∧
      (∀ e, apiFetch P parse res = .error e →
        e.status = res.status ∧
          (res.text = [] →
            e.payload = .scalar .null ∧
              e.message =
                ("Request failed (" : Str) ++ natDigits (res.status + 1) res.status ++ ")") ∧
          (res.text ≠ [] → parse res.text = none →
            e.payload = .scalar (.str res.text) ∧
              e.message =
                ("Request failed (" : Str) ++ natDigits (res.status + 1) res.status ++ ")") ∧
          (∀ o : JsObj N, res.text ≠ [] → parse res.text = some (.object o) →
            e.payload = .object o ∧
              (truthy P (get o "message") = true →
                e.message = jsString P (get o "message")) ∧
              (truthy P (get o "message") = false → truthy P (get o "error") = true →
                e.message = jsString P (get o "error")) ∧
              (truthy P (get o "message") = false → truthy P (get o "error") = false →
                truthy P (get o "detail") = true →
                e.message = jsString P (get o "detail")) ∧
              (truthy P (get o "message") = false → truthy P (get o "error") = false →
                truthy P (get o "detail") = false →
                e.message =
                  ("Request failed (" : Str) ++ natDigits (res.status + 1) res.status ++
                    ")")) ∧
          (∀ rs : List (JsObj N), res.text ≠ [] → parse res.text = some (.array rs) →
            e.payload = .array rs ∧
              e.message =
                ("Request failed (" : Str) ++ natDigits (res.status + 1) res.status ++ ")") ∧
          (∀ v : JsVal N, res.text ≠ [] → parse res.text = some (.scalar v) →
            e.payload = .scalar v ∧
              e.message =
                ("Request failed (" : Str) ++ natDigits (res.status + 1) res.status ++
                  ")")) := by
  constructor
  · rw [← ok_iff]
    cases hok : res.ok with
    | true =>
      rw [apiFetch_of_ok P parse res hok]
      simp
    | false =>
      rw [apiFetch_of_not_ok P parse res hok]
      simp
  · intro e he
    cases hok : res.ok with
    | true =>
      rw [apiFetch_of_ok P parse res hok] at he
      exact absurd he (by simp)
    | false =>
      rw [apiFetch_of_not_ok P parse res hok] at he
      simp only [Except.error.injEq] at he
      subst he
      refine ⟨rfl, ?_, ?_, ?_, ?_, ?_⟩
      · intro h
        have hb := readBody_of_empty parse res.text h
        refine ⟨hb, ?_⟩
        show jsString P (errorMsg P (readBody parse res.text) res.status) = _
        rw [hb]
        exact errorMsg_scalar P _ _
      · intro h hp
        have hb := readBody_of_not_json parse res.text h hp
        refine ⟨hb, ?_⟩
        show jsString P (errorMsg P (readBody parse res.text) res.status) = _
        rw [hb]
        exact errorMsg_scalar P _ _
      · intro o h hp
        have hb := readBody_of_json parse res.text _ h hp
        refine ⟨hb, ?_⟩
        show (_ → jsString P (errorMsg P (readBody parse res.text) res.status) = _) ∧
          (_ → _ → jsString P (errorMsg P (readBody parse res.text) res.status) = _) ∧
          (_ → _ → _ → jsString P (errorMsg P (readBody parse res.text) res.status) = _) ∧
          (_ → _ → _ → jsString P (errorMsg P (readBody parse res.text) res.status) = _)
        rw [hb]
        exact errorMsg_object P o res.status
      · intro rs h hp
        have hb := readBody_of_json parse res.text _ h hp
        refine ⟨hb, ?_⟩
        show jsString P (errorMsg P (readBody parse res.text) res.status) = _
        rw [hb]
        exact errorMsg_array P _ _
      · intro v h hp
        have hb := readBody_of_json parse res.text _ h hp
        refine ⟨hb, ?_⟩
        show jsString P (errorMsg P (readBody parse res.text) res.status) = _
        rw [hb]
        exact errorMsg_scalar P _ _

/-- C16, as stated, fails: the body `OK` of a response of status 200 is not JSON, and
`apiFetch` returns the text `OK`, not `null`. -/
theorem apiFetch_raw_text_counterexample :
    (Response.mk 200 "OK").ok = true ∧ sampleParse "OK" = none ∧
      apiFetch decNum sampleParse (Response.mk 200 "OK") = .ok (.scalar (.str "OK")) ∧
      apiFetch decNum sampleParse (Response.mk 200 "OK") ≠ .ok (.scalar .null) := by
  refine ⟨rfl, rfl, rfl, ?_⟩
  intro h
  rw [show apiFetch decNum sampleParse (Response.mk 200 "OK") = .ok (.scalar (.str "OK"))
    from rfl] at h
  simp only [Except.ok.injEq, Data.scalar.injEq] at h
  exact absurd h (by decide)

/-- C16, amended: for every 2xx response `apiFetch` does not fail; it returns `null` when
the body text is empty, the body text itself when the text is not valid JSON, and the
parsed value when it is. -/
theorem apiFetch_success {N : Type} (P : NumOps N) (parse : JsonParse N) (res : Response)
    (hok : res.ok = true) :
    (res.text = [] → apiFetch P parse res = .ok (.scalar .null)) ∧
      (res.text ≠ [] → parse res.text = none →
        apiFetch P parse res = .ok (.scalar (.str res.text))) ∧
      (∀ data, res.text ≠ [] → parse res.text = some data →
        apiFetch P parse res = .ok data) := by
  rw [apiFetch_of_ok P parse res hok]
  refine ⟨?_, ?_, ?_⟩
  · intro h
    simp [readBody, h]
  · intro h hp
    simp [readBody, h, hp]
  · intro data h hp
    simp [readBody, h, hp]

/-- Witness of C16 amended: responses of status 200 with an empty body, with the body
`OK` and with the body of an empty array. -/
theorem apiFetch_success_witness :
    (Response.mk 200 "").ok = true ∧
      apiFetch decNum sampleParse (Response.mk 200 "") = .ok (.scalar .null) ∧
      apiFetch decNum sampleParse (Response.mk 200 "OK") = .ok (.scalar (.str "OK")) ∧
      apiFetch decNum sampleParse (Response.mk 200 "[]") = .ok (.array []) :=
  ⟨rfl, (apiFetch_success decNum sampleParse (Response.mk 200 "") rfl).1 rfl,
    (apiFetch_success decNum sampleParse (Response.mk 200 "OK") rfl).2.1 (by decide) rfl,
    (apiFetch_success decNum sampleParse (Response.mk 200 "[]") rfl).2.2 _ (by decide) rfl⟩


/-- Sample runs of `apiFetch`: a 404 whose body carries a message fails with that
message, a 500 whose body is not JSON fails with the synthesized message, and a store
answering 404 is seen by the handlers as the failure `Not found`. -/
theorem apiFetch_samples :
    (∃ e, apiFetch decNum sampleParse (Response.mk 404 "\x7b\"message\":\"Not found\"\x7d") =
        .error e ∧ e.message = ("Not found" : Str) ∧ e.status = 404) ∧
      (∃ e, apiFetch decNum sampleParse (Response.mk 500 "<html>") = .error e ∧
        e.message = ("Request failed (500)" : Str) ∧ e.payload = .scalar (.str "<html>")) ∧
      throughFetch decNum sampleParse
          (fun _ => Response.mk 404 "\x7b\"message\":\"Not found\"\x7d")
          ⟨.DELETE, "/category/7", none⟩ = .error "Not found" :=
  ⟨⟨_, rfl, by decide, rfl⟩, ⟨_, rfl, by decide, rfl⟩, rfl⟩


section QueryData

variable {N : Type}

theorem lookupEntries_get (defs : List (Str × Str)) (held : List (Option (Data N)))
    (i : Nat) (e : Str × List (JsObj N)) (he : (lookupEntries defs held).get? i = some e) :
    ∃ d, defs.get? i = some d ∧ e.1 = d.1 ∧ e.2 = rowsOf ((held.get? i).join) := by
  induction defs generalizing held i with
  | nil => simp [lookupEntries] at he
  | cons d defs ih =>
    obtain ⟨k, path⟩ := d
    cases held with
    | nil =>
      cases i with
      | zero =>
        simp only [lookupEntries, List.get?_cons_zero, Option.some.injEq] at he
        subst he
        exact ⟨_, rfl, rfl, rfl⟩
      | succ i =>
        simp only [lookupEntries, List.get?_cons_succ] at he
        obtain ⟨d, h1, h2, h3⟩ := ih [] i he
        refine ⟨d, by simpa using h1, h2, ?_⟩
        rw [h3]
        simp
    | cons h hs =>
      cases i with
      | zero =>
        simp only [lookupEntries, List.get?_cons_zero, Option.some.injEq] at he
        subst he
        exact ⟨_, rfl, rfl, rfl⟩
      | succ i =>
        simp only [lookupEntries, List.get?_cons_succ] at he
        obtain ⟨d, h1, h2, h3⟩ := ih hs i he
        exact ⟨d, by simpa using h1, h2, by simpa using h3⟩

end QueryData

section Held

variable {N : Type}

theorem heldAfter_append (fetches : List (Except (ApiError N) (Data N)))
    (r : Except (ApiError N) (Data N)) :
    heldAfter (fetches ++ [r]) = settle (heldAfter fetches) r := by
  unfold heldAfter
  rw [List.foldl_append]
  rfl

theorem foldl_settle_of_failures (fetches : List (Except (ApiError N) (Data N)))
    (held : Option (Data N)) (h : ∀ r ∈ fetches, ∃ e, r = .error e) :
    fetches.foldl settle held = held := by
  induction fetches with
  | nil => rfl
  | cons r rest ih =>
    obtain ⟨e, he⟩ := h r (List.mem_cons_self _ _)
    subst he
    exact ih (fun r' hr' => h r' (List.mem_cons_of_mem _ hr'))

end Held

/-- C21, as stated, fails: the list fetch returns the array holding `Komediya`, then a
refetch is rejected; the fetch failed and the sequence handed to the view is still the
array, not the empty sequence. -/
theorem rows_after_failed_refetch_counterexample :
    rowsOf (heldAfter [.ok (.array [komediya]), .error serverDown]) = [komediya] ∧
      rowsOf (heldAfter [.ok (.array [komediya]), .error serverDown]) ≠ [] := by
  decide

/-- C21, amended: for every value `d` returned by the list fetch and by each lookup fetch,
the sequence handed to the view is `d` itself when `d` is an array and the empty sequence
when it is an object or a scalar (string, number, boolean, `null`); it is empty while the
query holds no data, that is before the first reply and when every fetch so far has
failed; a fetch that fails after an earlier success leaves the sequence of the last
successful fetch. -/
theorem rows_array_or_empty {N : Type} (P : NumOps N) :
    (∀ rs : List (JsObj N), rowsOf (some (.array rs)) = rs) ∧
      (∀ o : JsObj N, rowsOf (some (.object o)) = []) ∧
      (∀ v : JsVal N, rowsOf (some (.scalar v)) = []) ∧
      rowsOf (none : Option (Data N)) = [] ∧
      (∀ (fetches : List (Except (ApiError N) (Data N))) (d : Data N),
        rowsOf (heldAfter (fetches ++ [.ok d])) = select d) ∧
      (∀ (fetches : List (Except (ApiError N) (Data N))) (e : ApiError N),
        rowsOf (heldAfter (fetches ++ [.error e])) = rowsOf (heldAfter fetches)) ∧
      (∀ fetches : List (Except (ApiError N) (Data N)),
        (∀ r ∈ fetches, ∃ e, r = .error e) → rowsOf (heldAfter fetches) = []) ∧
      (∀ (defs : List (Str × Str)) (held : List (Option (Data N))) (i : Nat)
          (e : Str × List (JsObj N)), (lookupEntries defs held).get? i = some e →
        ∃ d, defs.get? i = some d ∧ e.1 = d.1 ∧ e.2 = rowsOf ((held.get? i).join)) ∧
      (∀ h₁ h₂ : Option (Data N),
        Lookups.getOrEmpty (lookups (movie_actor.resource P).lookups [h₁, h₂]) "movies" =
            rowsOf h₁ ∧
          Lookups.getOrEmpty (lookups (movie_actor.resource P).lookups [h₁, h₂]) "actors" =
            rowsOf h₂ ∧
          Lookups.getOrEmpty (lookups (movie_category.resource P).lookups [h₁, h₂])
            "categories" = rowsOf h₂ ∧
          Lookups.getOrEmpty (lookups (movie_genre.resource P).lookups [h₁, h₂]) "genres" =
            rowsOf h₂) := by
  refine ⟨fun _ => rfl, fun _ => rfl, fun _ => rfl, rfl, ?_, ?_, ?_, lookupEntries_get,
    fun _ _ => ⟨rfl, rfl, rfl, rfl⟩⟩
  · intro fetches d
    rw [heldAfter_append]
    rfl
  · intro fetches e
    rw [heldAfter_append]
    rfl
  · intro fetches h
    unfold heldAfter
    rw [foldl_settle_of_failures fetches none h]
    rfl

/-- C23: for every descriptor, state and row, `openCreate` sets the mode to create, the
current record to `null`, the draft to `makeEmpty()` and opens the modal; `openEdit(row)`
sets the mode to edit, the current record to `row`, the draft to `makeFromRow(row)` and
opens the modal; neither draft depends on the state the handler started from. -/
theorem open_starts_session {N : Type} (R : Resource N) (st st' : State N) (row : JsObj N) :
    ((openCreate R st).mode = .create ∧ (openCreate R st).current = none ∧
        (openCreate R st).form = R.makeEmpty ∧ (openCreate R st).modalOpen = true ∧
        (openCreate R st).query = st.query ∧ (openCreate R st).toast = st.toast) ∧
      ((openEdit R st row).mode = .edit ∧ (openEdit R st row).current = some row ∧
        (openEdit R st row).form = R.makeFromRow row ∧ (openEdit R st row).modalOpen = true ∧
        (openEdit R st row).query = st.query ∧ (openEdit R st row).toast = st.toast) ∧
      (openCreate R st).form = (openCreate R st').form ∧
      (openEdit R st row).form = (openEdit R st' row).form :=
  ⟨⟨rfl, rfl, rfl, rfl, rfl, rfl⟩, ⟨rfl, rfl, rfl, rfl, rfl, rfl⟩, rfl, rfl⟩

/-- C25: for a descriptor that declares no update path, the edit action is offered for no
row while the delete action is offered for every row, and a save in edit mode fails with
the message `Update endpoint is not configured for this resource` without any request. -/
theorem no_update_path {N : Type} (P : NumOps N) (R : Resource N) (server : Server N)
    (st : State N) (payload : JsObj N) (id : JsVal N) (hno : R.paths.update = none) :
    (rowActions R = [RowAction.delete] ∧ RowAction.edit ∉ rowActions R ∧
        RowAction.delete ∈ rowActions R) ∧
      saveMutation R server payload .edit id =
        (.error "Update endpoint is not configured for this resource", []) ∧
      (st.mode = .edit → missingFields P R (R.toPayload st.form) = [] →
        (submit P R server st).requests = [] ∧ (submit P R server st).invalidated = [] ∧
          (submit P R server st).state.toast =
            some (Toast.mk "error" "Save failed"
              "Update endpoint is not configured for this resource")) := by
  have hsave : ∀ pl i, saveMutation R server pl .edit i =
      (.error "Update endpoint is not configured for this resource", []) := by
    intro pl i
    simp only [saveMutation, hno]
  have hact : rowActions R = [RowAction.delete] := by
    simp [rowActions, hno]
  refine ⟨⟨hact, ?_, ?_⟩, hsave payload id, ?_⟩
  · rw [hact]
    decide
  · rw [hact]
    decide
  · intro hmode hm
    have hs : (saveMutation R server (R.toPayload st.form) st.mode (currentId st.current)).1 =
        .error "Update endpoint is not configured for this resource" := by
      rw [hmode, hsave]
    have h2 : (saveMutation R server (R.toPayload st.form) st.mode (currentId st.current)).2 =
        [] := by
      rw [hmode, hsave]
    rw [submit_of_error P R server st _ hm hs, h2]
    exact ⟨rfl, rfl, rfl⟩

/-- Witness of C25: the category descriptor without its update path, with the edit form
open on the record `Komediya`. -/
theorem no_update_path_witness :
    noUpdate.paths.update = none ∧ rowActions noUpdate = [RowAction.delete] ∧
      (submit decNum noUpdate acceptAll (editing komediya)).requests = [] ∧
      (submit decNum noUpdate acceptAll (editing komediya)).state.toast =
        some (Toast.mk "error" "Save failed"
          "Update endpoint is not configured for this resource") :=
  have h := no_update_path decNum noUpdate acceptAll (editing komediya) [] .undefined rfl
  have h3 := h.2.2 rfl (by decide)
  ⟨rfl, h.1.1, h3.1, h3.2.2⟩

/-- C26: for every resource path `p`, the development address `/xano` followed by `p` is
rewritten by the proxy to `/api:j6hO02gL` followed by `p`, so that the proxy target
followed by the rewritten path is the production address `XANO_BASE` followed by `p`;
only a leading `/xano` is replaced, and a path that does not start with `/xano` is
unchanged. -/
theorem proxy_rewrite (p : Str) :
    fetchUrl true p = ("/xano" : Str) ++ p ∧
      rewrite (("/xano" : Str) ++ p) = ("/api:j6hO02gL" : Str) ++ p ∧
      proxyTarget ++ rewrite (fetchUrl true p) = XANO_BASE ++ p ∧
      fetchUrl false p = XANO_BASE ++ p ∧
      (∀ path : Str, ¬ (("/xano" : Str) <+: path) → rewrite path = path) := by
  have hre : rewrite (("/xano" : Str) ++ p) = ("/api:j6hO02gL" : Str) ++ p := by
    unfold rewrite
    rw [if_pos ((startsWith_iff _ _).2 (List.prefix_append _ _)),
      List.drop_left' (by decide)]
  refine ⟨rfl, hre, ?_, rfl, ?_⟩
  · show proxyTarget ++ rewrite (("/xano" : Str) ++ p) = XANO_BASE ++ p
    rw [hre, ← List.append_assoc]
    rfl
  · intro path h
    unfold rewrite
    rw [if_neg]
    rw [startsWith_iff]
    exact h


section SlugFixed

variable {N : Type}

theorem isHyphen_iff (c : Char) : isHyphen c = true ↔ c = '-' := by
  unfold isHyphen
  constructor
  · intro h
    simp only [beq_iff_eq] at h
    have hc := Char.ofNat_toNat c
    rw [h] at hc
    exact hc.symm
  · intro h
    subst h
    decide

theorem lowerChar_of_slugChar (c : Char) (h : isSlugChar c = true) : lowerChar c = [c] := by
  unfold isSlugChar at h
  simp only [Bool.or_eq_true, Bool.and_eq_true, decide_eq_true_eq, beq_iff_eq] at h
  unfold lowerChar
  simp only
  rw [if_neg (by omega), if_neg (by omega), if_neg (by omega)]

theorem toLowerCase_fixed (s : Str) (h : ∀ c ∈ s, isSlugChar c = true) :
    toLowerCase s = s := by
  induction s with
  | nil => rfl
  | cons c cs ih =>
    simp only [toLowerCase]
    rw [lowerChar_of_slugChar c (h c (List.mem_cons_self _ _)),
      ih (fun d hd => h d (List.mem_cons_of_mem _ hd))]
    rfl

theorem dropWhile_fixed (p : Char → Bool) (s : Str) (h : ∀ c ∈ s, p c = false) :
    s.dropWhile p = s := by
  cases s with
  | nil => rfl
  | cons c cs => simp [List.dropWhile_cons, h c (List.mem_cons_self _ _)]

theorem trim_fixed (s : Str) (h : ∀ c ∈ s, isSpace c = false) : trim s = s := by
  unfold trim trimStart trimEnd
  rw [dropWhile_fixed isSpace s h,
    dropWhile_fixed isSpace s.reverse (fun c hc => h c (List.mem_reverse.1 hc)),
    List.reverse_reverse]

theorem stripOther_fixed (s : Str) (h : ∀ c ∈ s, isSlugChar c = true) : stripOther s = s := by
  unfold stripOther
  rw [List.filter_eq_self]
  intro c hc
  have hs := h c hc
  unfold isSlugChar at hs
  unfold isWord isHyphen
  simp only [Bool.or_eq_true, Bool.and_eq_true, decide_eq_true_eq, beq_iff_eq] at hs ⊢
  omega

theorem replaceRunsFrom_of_none (p : Char → Bool) (r : Char) (b : Bool) (s : Str)
    (h : ∀ c ∈ s, p c = false) : replaceRunsFrom p r b s = s := by
  induction s generalizing b with
  | nil => rfl
  | cons c cs ih =>
    unfold replaceRunsFrom
    rw [if_neg (by simp [h c (List.mem_cons_self _ _)]),
      ih false (fun d hd => h d (List.mem_cons_of_mem _ hd))]

theorem replaceRunsFrom_hyphen_fixed (b : Bool) (s : Str)
    (hch : List.Chain' (fun x y => ¬ (isHyphen x = true ∧ isHyphen y = true)) s)
    (hb : b = true → ∀ x ∈ s.head?, isHyphen x = false) :
    replaceRunsFrom isHyphen '-' b s = s := by
  induction s generalizing b with
  | nil => rfl
  | cons c cs ih =>
    have hch' := List.chain'_cons'.1 hch
    unfold replaceRunsFrom
    by_cases hc : isHyphen c = true
    · have hbf : b = false := by
        cases b with
        | false => rfl
        | true =>
          have := hb rfl c (by simp)
          rw [hc] at this
          exact absurd this (by simp)
      subst hbf
      rw [if_pos hc, if_neg (by simp)]
      rw [ih true hch'.2 (fun _ x hx => by
        have := hch'.1 x hx
        by_contra hx'
        exact this ⟨hc, by simpa using hx'⟩)]
      rw [(isHyphen_iff c).1 hc]
    · rw [if_neg hc, ih false hch'.2 (fun h => absurd h (by simp))]

theorem toSlug_eq_str (P : NumOps N) (v : JsVal N) : ∃ s, toSlug P v = toSlug P (.str s) := by
  cases v with
  | undefined => exact ⟨"", rfl⟩
  | null => exact ⟨"null", rfl⟩
  | bool b => exact ⟨jsString P (.bool b), rfl⟩
  | num n => exact ⟨P.toStr n, rfl⟩
  | str s => exact ⟨s, rfl⟩

theorem toSlug_fixed (P : NumOps N) (s : Str) :
    toSlug P (.str (toSlug P (.str s))) = toSlug P (.str s) := by
  have hchars := toSlug_chars P s
  have hspace : ∀ c ∈ toSlug P (.str s), isSpace c = false :=
    fun c hc => isSpace_of_isSlugChar (hchars c hc)
  have hchain : List.Chain' (fun x y => ¬ (isHyphen x = true ∧ isHyphen y = true))
      (toSlug P (.str s)) := by
    rw [toSlug_str]
    exact (replaceRunsFrom_chain isHyphen '-' false _).1
  generalize toSlug P (.str s) = t at hchars hspace hchain
  rw [toSlug_str, toLowerCase_fixed t hchars, trim_fixed t hspace, stripOther_fixed t hchars]
  unfold replaceRuns
  rw [replaceRunsFrom_of_none isSpace '-' false t hspace]
  exact replaceRunsFrom_hyphen_fixed false t hchain (fun h => absurd h (by simp))

theorem set_invariant_other (P : NumOps N) (q : JsObj N) (k : Str) (v : JsVal N)
    (h1 : k ≠ "autoSlug") (h2 : k ≠ "slug") (h3 : k ≠ "name_uz")
    (h : truthy P (get q "autoSlug") = true →
      get q "slug" = .str (toSlug P (get q "name_uz"))) :
    truthy P (get (set q k v) "autoSlug") = true →
      get (set q k v) "slug" = .str (toSlug P (get (set q k v) "name_uz")) := by
  rw [get_set_ne _ _ _ _ h1, get_set_ne _ _ _ _ h2, get_set_ne _ _ _ _ h3]
  exact h

theorem editName_invariant (P : NumOps N) (q : JsObj N) (v : Str) :
    truthy P (get (editName P q v) "autoSlug") = true →
      get (editName P q v) "slug" = .str (toSlug P (get (editName P q v) "name_uz")) := by
  unfold editName
  cases ha : truthy P (get q "autoSlug") with
  | true =>
    simp only [if_true]
    intro _
    rw [get_set_self, get_set_ne _ _ _ _ (by decide), get_set_self]
  | false =>
    simp only [Bool.false_eq_true, if_false]
    rw [get_set_ne _ _ _ _ (by decide), ha]
    intro h
    exact absurd h (by simp)

theorem editSlug_invariant (P : NumOps N) (q : JsObj N) (v : Str) :
    truthy P (get (editSlug P q v) "autoSlug") = true →
      get (editSlug P q v) "slug" = .str (toSlug P (get (editSlug P q v) "name_uz")) := by
  unfold editSlug
  rw [get_set_self]
  intro h
  exact absurd h (by simp [truthy])

theorem reenable_invariant (P : NumOps N) (q : JsObj N) :
    truthy P (get (reenableAutoSlug P q) "autoSlug") = true →
      get (reenableAutoSlug P q) "slug" =
        .str (toSlug P (get (reenableAutoSlug P q) "name_uz")) :=
  fun _ => reenable_slug P q

theorem category_applyEdit_invariant (P : NumOps N) (q : JsObj N) (e : CategoryEdit)
    (h : truthy P (get q "autoSlug") = true →
      get q "slug" = .str (toSlug P (get q "name_uz"))) :
    truthy P (get (category.applyEdit P q e) "autoSlug") = true →
      get (category.applyEdit P q e) "slug" =
        .str (toSlug P (get (category.applyEdit P q e) "name_uz")) := by
  cases e with
  | name_uz v => exact editName_invariant P q v
  | slug v => exact editSlug_invariant P q v
  | name_ru v => exact set_invariant_other P q _ _ (by decide) (by decide) (by decide) h
  | name_en v => exact set_invariant_other P q _ _ (by decide) (by decide) (by decide) h
  | order_number v => exact set_invariant_other P q _ _ (by decide) (by decide) (by decide) h
  | is_active v => exact set_invariant_other P q _ _ (by decide) (by decide) (by decide) h
  | reenableAutoSlug => exact reenable_invariant P q

theorem genre_applyEdit_invariant (P : NumOps N) (q : JsObj N) (e : GenreEdit)
    (h : truthy P (get q "autoSlug") = true →
      get q "slug" = .str (toSlug P (get q "name_uz"))) :
    truthy P (get (genre.applyEdit P q e) "autoSlug") = true →
      get (genre.applyEdit P q e) "slug" =
        .str (toSlug P (get (genre.applyEdit P q e) "name_uz")) := by
  cases e with
  | name_uz v => exact editName_invariant P q v
  | slug v => exact editSlug_invariant P q v
  | name_ru v => exact set_invariant_other P q _ _ (by decide) (by decide) (by decide) h
  | name_en v => exact set_invariant_other P q _ _ (by decide) (by decide) (by decide) h
  | icon v => exact set_invariant_other P q _ _ (by decide) (by decide) (by decide) h
  | is_active v => exact set_invariant_other P q _ _ (by decide) (by decide) (by decide) h
  | reenableAutoSlug => exact reenable_invariant P q

theorem category_applyEdits_invariant (P : NumOps N) (es : List CategoryEdit) (q : JsObj N)
    (h : truthy P (get q "autoSlug") = true →
      get q "slug" = .str (toSlug P (get q "name_uz"))) :
    truthy P (get (category.applyEdits P q es) "autoSlug") = true →
      get (category.applyEdits P q es) "slug" =
        .str (toSlug P (get (category.applyEdits P q es) "name_uz")) := by
  induction es generalizing q with
  | nil => exact h
  | cons e es ih => exact ih _ (category_applyEdit_invariant P q e h)

theorem genre_applyEdits_invariant (P : NumOps N) (es : List GenreEdit) (q : JsObj N)
    (h : truthy P (get q "autoSlug") = true →
      get q "slug" = .str (toSlug P (get q "name_uz"))) :
    truthy P (get (genre.applyEdits P q es) "autoSlug") = true →
      get (genre.applyEdits P q es) "slug" =
        .str (toSlug P (get (genre.applyEdits P q es) "name_uz")) := by
  induction es generalizing q with
  | nil => exact h
  | cons e es ih => exact ih _ (genre_applyEdit_invariant P q e h)

end SlugFixed

/-- C27: for every string `s`, `toSlug(toSlug(s)) = toSlug(s)`, and likewise for every
value handed to `toSlug`; so normalising again a slug that was derived or typed into the
slug input does not change it. -/
theorem toSlug_idempotent {N : Type} (P : NumOps N) (s : Str) :
    toSlug P (.str (toSlug P (.str s))) = toSlug P (.str s) ∧
      (∀ v : JsVal N, toSlug P (.str (toSlug P v)) = toSlug P v) ∧
      (∀ p : JsObj N,
        get (editSlug P p (toSlug P (.str s))) "slug" = .str (toSlug P (.str s))) := by
  refine ⟨toSlug_fixed P s, ?_, ?_⟩
  · intro v
    obtain ⟨s', hs'⟩ := toSlug_eq_str P v
    rw [hs']
    exact toSlug_fixed P s'
  · intro p
    unfold editSlug
    rw [get_set_ne _ _ _ _ (by decide), get_set_self, toSlug_fixed]

/-- C28: in every category or genre form state reached from `makeEmpty()` or from
`makeFromRow(row)` by any sequence of form edits (name, slug, the other fields,
`Re-enable auto-slug`), a truthy `autoSlug` implies `slug = toSlug(name_uz)`. -/
theorem autoSlug_invariant {N : Type} (P : NumOps N) (row : JsObj N)
    (cs : List CategoryEdit) (gs : List GenreEdit) :
    (truthy P (get (category.applyEdits P (category.makeEmpty P) cs) "autoSlug") = true →
        get (category.applyEdits P (category.makeEmpty P) cs) "slug" =
          .str (toSlug P (get (category.applyEdits P (category.makeEmpty P) cs) "name_uz"))) ∧
      (truthy P (get (category.applyEdits P (category.makeFromRow P row) cs) "autoSlug") = true →
        get (category.applyEdits P (category.makeFromRow P row) cs) "slug" =
          .str (toSlug P
            (get (category.applyEdits P (category.makeFromRow P row) cs) "name_uz"))) ∧
      (truthy P (get (genre.applyEdits P genre.makeEmpty gs) "autoSlug") = true →
        get (genre.applyEdits P genre.makeEmpty gs) "slug" =
          .str (toSlug P (get (genre.applyEdits P genre.makeEmpty gs) "name_uz"))) ∧
      (truthy P (get (genre.applyEdits P (genre.makeFromRow P row) gs) "autoSlug") = true →
        get (genre.applyEdits P (genre.makeFromRow P row) gs) "slug" =
          .str (toSlug P (get (genre.applyEdits P (genre.makeFromRow P row) gs) "name_uz"))) := by
  refine ⟨?_, ?_, ?_, ?_⟩
  · exact category_applyEdits_invariant P cs _ (fun _ => rfl)
  · exact category_applyEdits_invariant P cs _
      (fun h => absurd h (by simp [category.makeFromRow, get, truthy]))
  · exact genre_applyEdits_invariant P gs _ (fun _ => rfl)
  · exact genre_applyEdits_invariant P gs _
      (fun h => absurd h (by simp [genre.makeFromRow, get, truthy]))


section Renderers

variable {N : Type}

theorem find?_first (p : JsObj N → Bool) (l : List (JsObj N)) (m : JsObj N) :
    l.find? p = some m ↔
      ∃ before after,
        l = before ++ m :: after ∧ p m = true ∧ ∀ x ∈ before, p x = false := by
  induction l with
  | nil => simp
  | cons a l ih =>
    cases ha : p a with
    | true =>
      rw [List.find?_cons_of_pos _ ha]
      constructor
      · intro h
        simp only [Option.some.injEq] at h
        subst h
        exact ⟨[], l, rfl, ha, fun _ hx => absurd hx (List.not_mem_nil _)⟩
      · rintro ⟨before, after, hl, _, hb⟩
        cases before with
        | nil =>
          simp only [List.nil_append, List.cons.injEq] at hl
          rw [hl.1]
        | cons b bs =>
          simp only [List.cons_append, List.cons.injEq] at hl
          have := hb b (List.mem_cons_self _ _)
          rw [← hl.1, ha] at this
          exact absurd this (by simp)
    | false =>
      rw [List.find?_cons_of_neg _ (by simp [ha]), ih]
      constructor
      · rintro ⟨before, after, hl, hm, hb⟩
        refine ⟨a :: before, after, by simp [hl], hm, ?_⟩
        intro x hx
        rcases List.mem_cons.1 hx with h | h
        · rw [h]
          exact ha
        · exact hb x h
      · rintro ⟨before, after, hl, hm, hb⟩
        cases before with
        | nil =>
          simp only [List.nil_append, List.cons.injEq] at hl
          rw [← hl.1, ha] at hm
          exact absurd hm (by simp)
        | cons b bs =>
          simp only [List.cons_append, List.cons.injEq] at hl
          exact ⟨bs, after, hl.2, hm, fun x hx => hb x (List.mem_cons_of_mem _ hx)⟩

theorem orElse_undefined (P : NumOps N) (b : JsVal N) : orElse P .undefined b = b := rfl

theorem label_or_raw (P : NumOps N) (label raw : JsVal N) :
    (truthy P label = true → orElse P label raw = label) ∧
      (truthy P label = false → orElse P label raw = raw) :=
  ⟨orElse_of_truthy P label raw, orElse_of_falsy P label raw⟩

theorem findById_of_empty (eqN : N → N → Bool) (lookups : Lookups N) (k : Str) (id : JsVal N)
    (h : Lookups.getOrEmpty lookups k = []) : findById eqN lookups k id = none := by
  unfold findById
  rw [h]
  rfl

end Renderers

/-- C24: for the join tables that declare lookups and for every row and `lookups` value,
each foreign-key column shows the label of the first lookup record whose `id` is strictly
equal to the foreign key (movie: `title_uz`, else `title_en`; actor: `full_name`; category
and genre: `name_uz`, else `name_en`, else `slug`) when there is such a record and its
label is non-empty (truthy), and the raw foreign key otherwise, in particular when the
lookup list is empty or missing. -/
theorem render_foreign_key {N : Type} (P : NumOps N) (eqN : N → N → Bool) (r : JsObj N)
    (lookups : Lookups N) :
    (∀ (k : Str) (id : JsVal N) (m : JsObj N), findById eqN lookups k id = some m ↔
        ∃ before after, Lookups.getOrEmpty lookups k = before ++ m :: after ∧
          strictEq eqN (get m "id") id = true ∧
          ∀ x ∈ before, strictEq eqN (get x "id") id = false) ∧
      (∀ (k : Str) (id : JsVal N), Lookups.getOrEmpty lookups k = [] →
        findById eqN lookups k id = none) ∧
      ((∀ m, findById eqN lookups "movies" (get r "movie_id") = some m →
          (truthy P (orElse P (get m "title_uz") (get m "title_en")) = true →
            renderMovie P eqN r lookups = orElse P (get m "title_uz") (get m "title_en")) ∧
          (truthy P (orElse P (get m "title_uz") (get m "title_en")) = false →
            renderMovie P eqN r lookups = get r "movie_id")) ∧
        (findById eqN lookups "movies" (get r "movie_id") = none →
          renderMovie P eqN r lookups = get r "movie_id")) ∧
      ((∀ a, findById eqN lookups "actors" (get r "actor_id") = some a →
          (truthy P (get a "full_name") = true →
            renderActor P eqN r lookups = get a "full_name") ∧
          (truthy P (get a "full_name") = false →
            renderActor P eqN r lookups = get r "actor_id")) ∧
        (findById eqN lookups "actors" (get r "actor_id") = none →
          renderActor P eqN r lookups = get r "actor_id")) ∧
      ((∀ c, findById eqN lookups "categories" (get r "category_id") = some c →
          (truthy P (orElse P (orElse P (get c "name_uz") (get c "name_en")) (get c "slug")) =
              true →
            renderCategory P eqN r lookups =
              orElse P (orElse P (get c "name_uz") (get c "name_en")) (get c "slug")) ∧
          (truthy P (orElse P (orElse P (get c "name_uz") (get c "name_en")) (get c "slug")) =
              false →
            renderCategory P eqN r lookups = get r "category_id")) ∧
        (findById eqN lookups "categories" (get r "category_id") = none →
          renderCategory P eqN r lookups = get r "category_id")) ∧
      ((∀ g, findById eqN lookups "genres" (get r "genre_id") = some g →
          (truthy P (orElse P (orElse P (get g "name_uz") (get g "name_en")) (get g "slug")) =
              true →
            renderGenre P eqN r lookups =
              orElse P (orElse P (get g "name_uz") (get g "name_en")) (get g "slug")) ∧
          (truthy P (orElse P (orElse P (get g "name_uz") (get g "name_en")) (get g "slug")) =
              false →
            renderGenre P eqN r lookups = get r "genre_id")) ∧
        (findById eqN lookups "genres" (get r "genre_id") = none →
          renderGenre P eqN r lookups = get r "genre_id")) := by
  refine ⟨fun k id m => find?_first _ _ m, fun k id => findById_of_empty eqN lookups k id,
    ⟨?_, ?_⟩, ⟨?_, ?_⟩, ⟨?_, ?_⟩, ⟨?_, ?_⟩⟩
  · intro m hm
    unfold renderMovie
    simp only [hm, optGet]
    exact label_or_raw P _ _
  · intro hm
    unfold renderMovie
    simp only [hm, optGet]
    rfl
  · intro a ha
    unfold renderActor
    simp only [ha, optGet]
    exact label_or_raw P _ _
  · intro ha
    unfold renderActor
    simp only [ha, optGet]
    rfl
  · intro c hc
    unfold renderCategory
    simp only [hc, optGet]
    exact label_or_raw P _ _
  · intro hc
    unfold renderCategory
    simp only [hc, optGet]
    rfl
  · intro g hg
    unfold renderGenre
    simp only [hg, optGet]
    exact label_or_raw P _ _
  · intro hg
    unfold renderGenre
    simp only [hg, optGet]
    rfl

/-- Sample runs of the renderers on the record `casting`: the movie 3 is shown by its
English title, the actor 5, whose name is empty, by the raw id, and with no lookups at
all both columns show the raw ids. -/
theorem render_samples :
    renderMovie decNum decNumEq casting sampleLookups = .str "Interstellar" ∧
      renderActor decNum decNumEq casting sampleLookups = .num (some 5) ∧
      renderMovie decNum decNumEq casting [] = .num (some 3) ∧
      renderActor decNum decNumEq casting [("actors", [])] = .num (some 5) := by
  decide

/-- C22, the code at the failing input: a notification is shown at 0 ms by the function
`showToast` of the first render and a second one at 2000 ms by the function of the next
render. The call at 2000 ms clears nothing, both timeouts are pending, and at 2600 ms the
first timeout empties the slot, 600 ms after the second notification was shown; called on
the same function object, `showToast` does reset the timer. -/
theorem toast_dismissed_by_earlier_timer :
    (ToastClock.run [.show 0 toastA, .wait 2000, .show 1 toastB]).toast = some toastB ∧
      (ToastClock.run [.show 0 toastA, .wait 2000, .show 1 toastB]).timers =
        [(1, 2600), (2, 4600)] ∧
      (ToastClock.run [.show 0 toastA, .wait 2000, .show 1 toastB, .wait 600]).now = 2600 ∧
      (ToastClock.run [.show 0 toastA, .wait 2000, .show 1 toastB, .wait 600]).toast = none ∧
      (ToastClock.run [.show 0 toastA, .wait 2000, .show 0 toastB, .wait 600]).toast =
        some toastB := by
  decide

end AdminMovie
